import Mathlib

set_option maxRecDepth 100000

/-!
Verification of the request-execution core of the caldavtester repository
(`src/request.py`, `src/testsuite.py`, `verifiers/postFreeBusy.py`) against its
natural-language specification.  Python strings are modelled as Lean `String`s,
byte strings as `List Nat` (each entry `< 256`, ASCII inputs), machine words as
`Nat` reduced `% 2 ^ 32` where overflow matters, dictionaries as association
lists, raised exceptions as `Except`, and the mutable state touched by
`request` methods (digest cache, nonce-count table, uuid generation, directory
cursor) as explicitly threaded record state.
-/

namespace CalDav

/-- The bytes of a Python (ASCII) string, one code point per byte. -/
def strBytes (s : String) : List Nat := s.data.map Char.toNat

/-- Lower-case hexadecimal digit for a value `< 16`. -/
def hexDigitChar (n : Nat) : Char :=
  if n < 10 then Char.ofNat (48 + n) else Char.ofNat (87 + n)

/-- Python `str.encode('hex')`: two lower-case hex digits per byte. -/
def hexEncodeBytes (bs : List Nat) : String :=
  String.mk (bs.map (fun b => [hexDigitChar (b / 16), hexDigitChar (b % 16)])).flatten

/-- Value of one hexadecimal digit character, if it is one. -/
def hexVal (c : Char) : Option Nat :=
  if 48 ≤ c.toNat ∧ c.toNat ≤ 57 then some (c.toNat - 48)
  else if 97 ≤ c.toNat ∧ c.toNat ≤ 102 then some (c.toNat - 87)
  else if 65 ≤ c.toNat ∧ c.toNat ≤ 70 then some (c.toNat - 55)
  else none

/-- Python `str.decode('hex')`: pairs of hex digits to bytes, error on odd
length or non-hex characters. -/
def hexDecodeChars : List Char → Except String (List Nat)
  | [] => .ok []
  | [_] => .error "TypeError: Odd-length string"
  | c1 :: c2 :: rest =>
    match hexVal c1, hexVal c2 with
    | some h, some l =>
      match hexDecodeChars rest with
      | .ok bs => .ok ((16 * h + l) :: bs)
      | .error e => .error e
    | _, _ => .error "TypeError: Non-hexadecimal digit found"

/-- Python `str.decode('hex')` on a string. -/
def hexDecodeBytes (s : String) : Except String (List Nat) :=
  hexDecodeChars s.data

/-- 32-bit complement, for arguments `< 2 ^ 32`. -/
def not32 (x : Nat) : Nat := x ^^^ 4294967295

/-- 32-bit left rotation, for arguments `< 2 ^ 32` and `0 < n < 32`. -/
def rotl32 (x n : Nat) : Nat :=
  ((x <<< n) % 4294967296) ||| (x >>> (32 - n))

/-- `k` bytes of `n`, little-endian. -/
def toLE : Nat → Nat → List Nat
  | _, 0 => []
  | n, k + 1 => (n % 256) :: toLE (n / 256) k

/-- `k` bytes of `n`, big-endian. -/
def toBE : Nat → Nat → List Nat
  | _, 0 => []
  | n, k + 1 => toBE (n / 256) k ++ [n % 256]

/-- A 32-bit word from (up to) four little-endian bytes. -/
def leWord (bs : List Nat) : Nat := bs.foldr (fun b acc => b + 256 * acc) 0

/-- A 32-bit word from big-endian bytes. -/
def beWord (bs : List Nat) : Nat := bs.foldl (fun acc b => acc * 256 + b) 0

/-- Accumulator for `splitChunks`: `cur` holds the current (reversed) partial
chunk, `n` its length. -/
def splitChunksAux (cur : List Nat) (n : Nat) : List Nat → List (List Nat)
  | [] => if cur.isEmpty then [] else [cur.reverse]
  | b :: rest =>
    if n = 63 then (b :: cur).reverse :: splitChunksAux [] 0 rest
    else splitChunksAux (b :: cur) (n + 1) rest

/-- Split a byte string into 64-byte chunks (structural recursion, so that the
kernel can evaluate the hash functions). -/
def splitChunks (l : List Nat) : List (List Nat) := splitChunksAux [] 0 l

/-- Merkle–Damgård padding shared by MD5 and SHA-1: a `0x80` byte, zeros to 56
mod 64, then the 8-byte bit length (little-endian for MD5, big-endian for
SHA-1, chosen by `le`). -/
def mdPad (le : Bool) (msg : List Nat) : List Nat :=
  let len := msg.length
  let zeros := (119 - len % 64) % 64
  let lenBytes :=
    if le then toLE ((len * 8) % 18446744073709551616) 8
    else toBE ((len * 8) % 18446744073709551616) 8
  msg ++ 128 :: List.replicate zeros 0 ++ lenBytes

/-- The sixteen 32-bit little-endian words of a 64-byte MD5 chunk. -/
def chunkWordsLE (c : List Nat) : List Nat :=
  (List.range 16).map (fun i => leWord ((c.drop (4 * i)).take 4))

/-- The MD5 per-step sine-derived constants. -/
def md5K : List Nat :=
  [0xd76aa478, 0xe8c7b756, 0x242070db, 0xc1bdceee,
   0xf57c0faf, 0x4787c62a, 0xa8304613, 0xfd469501,
   0x698098d8, 0x8b44f7af, 0xffff5bb1, 0x895cd7be,
   0x6b901122, 0xfd987193, 0xa679438e, 0x49b40821,
   0xf61e2562, 0xc040b340, 0x265e5a51, 0xe9b6c7aa,
   0xd62f105d, 0x02441453, 0xd8a1e681, 0xe7d3fbc8,
   0x21e1cde6, 0xc33707d6, 0xf4d50d87, 0x455a14ed,
   0xa9e3e905, 0xfcefa3f8, 0x676f02d9, 0x8d2a4c8a,
   0xfffa3942, 0x8771f681, 0x6d9d6122, 0xfde5380c,
   0xa4beea44, 0x4bdecfa9, 0xf6bb4b60, 0xbebfbc70,
   0x289b7ec6, 0xeaa127fa, 0xd4ef3085, 0x04881d05,
   0xd9d4d039, 0xe6db99e5, 0x1fa27cf8, 0xc4ac5665,
   0xf4292244, 0x432aff97, 0xab9423a7, 0xfc93a039,
   0x655b59c3, 0x8f0ccc92, 0xffeff47d, 0x85845dd1,
   0x6fa87e4f, 0xfe2ce6e0, 0xa3014314, 0x4e0811a1,
   0xf7537e82, 0xbd3af235, 0x2ad7d2bb, 0xeb86d391]

/-- The MD5 per-step left-rotation amounts. -/
def md5S : List Nat :=
  [7, 12, 17, 22, 7, 12, 17, 22, 7, 12, 17, 22, 7, 12, 17, 22,
   5, 9, 14, 20, 5, 9, 14, 20, 5, 9, 14, 20, 5, 9, 14, 20,
   4, 11, 16, 23, 4, 11, 16, 23, 4, 11, 16, 23, 4, 11, 16, 23,
   6, 10, 15, 21, 6, 10, 15, 21, 6, 10, 15, 21, 6, 10, 15, 21]

/-- MD5 round function and message index for step `i`. -/
def md5FG (i b c d : Nat) : Nat × Nat :=
  if i < 16 then ((b &&& c) ||| (not32 b &&& d), i)
  else if i < 32 then ((d &&& b) ||| (not32 d &&& c), (5 * i + 1) % 16)
  else if i < 48 then (b ^^^ c ^^^ d, (3 * i + 5) % 16)
  else (c ^^^ (b ||| not32 d), (7 * i) % 16)

/-- One step of the MD5 compression function. -/
def md5Step (m : List Nat) (st : Nat × Nat × Nat × Nat) (i : Nat) :
    Nat × Nat × Nat × Nat :=
  let (a, b, c, d) := st
  let (f, g) := md5FG i b c d
  let f := (f + a + md5K.getD i 0 + m.getD g 0) % 4294967296
  (d, (b + rotl32 f (md5S.getD i 0)) % 4294967296, b, c)

/-- The MD5 compression function on one 16-word chunk. -/
def md5Chunk (st : Nat × Nat × Nat × Nat) (m : List Nat) :
    Nat × Nat × Nat × Nat :=
  let (a, b, c, d) := (List.range 64).foldl (md5Step m) st
  ((st.1 + a) % 4294967296, (st.2.1 + b) % 4294967296,
   (st.2.2.1 + c) % 4294967296, (st.2.2.2 + d) % 4294967296)

/-- The 16-byte MD5 digest of a byte string (RFC 1321). -/
def md5Bytes (msg : List Nat) : List Nat :=
  let st := (splitChunks (mdPad true msg)).foldl
    (fun st c => md5Chunk st (chunkWordsLE c))
    (0x67452301, 0xefcdab89, 0x98badcfe, 0x10325476)
  toLE st.1 4 ++ toLE st.2.1 4 ++ toLE st.2.2.1 4 ++ toLE st.2.2.2 4

/-- SHA-1 round function and constant for step `t`. -/
def sha1FK (t b c d : Nat) : Nat × Nat :=
  if t < 20 then ((b &&& c) ||| (not32 b &&& d), 0x5a827999)
  else if t < 40 then (b ^^^ c ^^^ d, 0x6ed9eba1)
  else if t < 60 then ((b &&& c) ||| (b &&& d) ||| (c &&& d), 0x8f1bbcdc)
  else (b ^^^ c ^^^ d, 0xca62c1d6)

/-- The sixteen 32-bit big-endian words of a 64-byte SHA-1 chunk. -/
def chunkWordsBE (c : List Nat) : List Nat :=
  (List.range 16).map (fun i => beWord ((c.drop (4 * i)).take 4))

/-- The SHA-1 message schedule: extend 16 words to 80. -/
def sha1Extend (w : List Nat) : List Nat :=
  (List.range 64).foldl
    (fun w i =>
      w ++ [rotl32 (w.getD (i + 13) 0 ^^^ w.getD (i + 8) 0 ^^^
                    w.getD (i + 2) 0 ^^^ w.getD i 0) 1])
    w

/-- One step of the SHA-1 compression function. -/
def sha1Step (w : List Nat) (st : Nat × Nat × Nat × Nat × Nat) (t : Nat) :
    Nat × Nat × Nat × Nat × Nat :=
  let (a, b, c, d, e) := st
  let (f, k) := sha1FK t b c d
  let temp := (rotl32 a 5 + f + e + k + w.getD t 0) % 4294967296
  (temp, a, rotl32 b 30, c, d)

/-- The SHA-1 compression function on one chunk. -/
def sha1Chunk (st : Nat × Nat × Nat × Nat × Nat) (m : List Nat) :
    Nat × Nat × Nat × Nat × Nat :=
  let w := sha1Extend m
  let (a, b, c, d, e) := (List.range 80).foldl (sha1Step w) st
  ((st.1 + a) % 4294967296, (st.2.1 + b) % 4294967296,
   (st.2.2.1 + c) % 4294967296, (st.2.2.2.1 + d) % 4294967296,
   (st.2.2.2.2 + e) % 4294967296)

/-- The 20-byte SHA-1 digest of a byte string (RFC 3174). -/
def sha1Bytes (msg : List Nat) : List Nat :=
  let st := (splitChunks (mdPad false msg)).foldl
    (fun st c => sha1Chunk st (chunkWordsBE c))
    (0x67452301, 0xefcdab89, 0x98badcfe, 0x10325476, 0xc3d2e1f0)
  toBE st.1 4 ++ toBE st.2.1 4 ++ toBE st.2.2.1 4 ++ toBE st.2.2.2.1 4 ++
    toBE st.2.2.2.2 4

/-! ### Generic string and dictionary helpers -/

/-- First index of `pat` as a sub-list of `hay` (Python `str.find`, with
`none` for Python's `-1`). -/
def findIdx : List Char → List Char → Option Nat
  | [], pat => if pat.isEmpty then some 0 else none
  | c :: t, pat =>
    if pat.isPrefixOf (c :: t) then some 0 else (findIdx t pat).map (· + 1)

/-- Python `pat in hay` on strings. -/
def containsC (hay pat : List Char) : Bool := (findIdx hay pat).isSome

/-- Fuelled worker for `replaceC`; the fuel is an upper bound on the length of
the haystack, so it never runs out. -/
def replaceFuel : Nat → List Char → List Char → List Char → List Char
  | 0, hay, _, _ => hay
  | fuel + 1, hay, pat, rep =>
    match hay with
    | [] => []
    | c :: rest =>
      if !pat.isEmpty && pat.isPrefixOf (c :: rest) then
        rep ++ replaceFuel fuel ((c :: rest).drop pat.length) pat rep
      else c :: replaceFuel fuel rest pat rep

/-- Python `hay.replace(pat, rep)`: every non-overlapping occurrence, left to
right (for non-empty `pat`). -/
def replaceC (hay pat rep : List Char) : List Char :=
  replaceFuel hay.length hay pat rep

/-- Python `str.replace` on strings. -/
def replaceStr (hay pat rep : String) : String :=
  String.mk (replaceC hay.data pat.data rep.data)

/-- Python `pat in hay` on strings. -/
def containsStr (hay pat : String) : Bool := containsC hay.data pat.data

/-- Dictionary lookup on an association list (Python `dict.get`). -/
def alookup {α β : Type} [DecidableEq α] : List (α × β) → α → Option β
  | [], _ => none
  | (k, v) :: t, key => if k = key then some v else alookup t key

/-- Dictionary insert-or-overwrite on an association list
(Python `d[key] = v`), preserving insertion order. -/
def aset {α β : Type} [DecidableEq α] : List (α × β) → α → β → List (α × β)
  | [], key, v => [(key, v)]
  | (k, w) :: t, key, v =>
    if k = key then (key, v) :: t else (k, w) :: aset t key v

/-- Python truthiness of an optional string: `None` and `""` are falsy. -/
def truthy : Option String → Bool
  | none => false
  | some s => !s.isEmpty

/-- Python `"%s" % v` for a value that may be `None`. -/
def ostr : Option String → String
  | none => "None"
  | some s => s

/-! ### Digest response computation (`request.py` lines 33–130) -/

/-- The `algorithms` table of `request.py`: algorithm name to hash function. -/
def algorithms (s : String) : Option (List Nat → List Nat) :=
  if s = "md5" then some md5Bytes
  else if s = "md5-sess" then some md5Bytes
  else if s = "sha" then some sha1Bytes
  else none

/-- `calcHA1` (`request.py` lines 42–92).  Arguments that Python may receive
as `None` are `Option String`; hashing `None` raises, modelled as `.error`.
An unknown algorithm name raises `KeyError`. -/
def calcHA1 (pszAlg : String)
    (pszUserName pszRealm pszPassword pszNonce pszCNonce : Option String)
    (preHA1 : Option String) : Except String String :=
  if truthy preHA1 &&
      (truthy pszUserName || truthy pszRealm || truthy pszPassword) then
    .error "TypeError: preHA1 is incompatible with the pszUserName, pszRealm, and pszPassword arguments"
  else
    let ha1E : Except String (List Nat) :=
      match preHA1 with
      | none =>
        match algorithms pszAlg with
        | none => .error "KeyError: unknown digest algorithm"
        | some h =>
          match pszUserName, pszRealm, pszPassword with
          | some u, some r, some p =>
            .ok (h (strBytes u ++ strBytes ":" ++ strBytes r ++
                    strBytes ":" ++ strBytes p))
          | _, _, _ => .error "TypeError: update expected a string, got None"
      | some pre => hexDecodeBytes pre
    match ha1E with
    | .error e => .error e
    | .ok ha1 =>
      if pszAlg = "md5-sess" then
        match pszNonce, pszCNonce with
        | some n, some c =>
          .ok (hexEncodeBytes (md5Bytes
            (ha1 ++ strBytes ":" ++ strBytes n ++ strBytes ":" ++ strBytes c)))
        | _, _ => .error "TypeError: update expected a string, got None"
      else .ok (hexEncodeBytes ha1)

/-- `calcResponse` (`request.py` lines 96–130).  `HA2` is the hex digest of
`method:digest-uri`, with the entity hash folded in when qop is `auth-int`;
the response hashes `HA1:nonce:HA2`, inserting `nc:cnonce:qop:` when all
three are truthy. -/
def calcResponse (HA1 algo : String)
    (pszNonce pszNonceCount pszCNonce pszQop : Option String)
    (pszMethod pszDigestUri : String) (pszHEntity : Option String) :
    Except String String :=
  match algorithms algo with
  | none => .error "KeyError: unknown digest algorithm"
  | some h =>
    let ha2E : Except String (List Nat) :=
      if pszQop = some "auth-int" then
        match pszHEntity with
        | some e =>
          .ok (strBytes pszMethod ++ strBytes ":" ++ strBytes pszDigestUri ++
               strBytes ":" ++ strBytes e)
        | none => .error "TypeError: update expected a string, got None"
      else .ok (strBytes pszMethod ++ strBytes ":" ++ strBytes pszDigestUri)
    match ha2E with
    | .error e => .error e
    | .ok ha2b =>
      let HA2 := hexEncodeBytes (h ha2b)
      match pszNonce with
      | none => .error "TypeError: update expected a string, got None"
      | some n =>
        let mid : List Nat :=
          if truthy pszNonceCount && truthy pszCNonce && truthy pszQop then
            strBytes (pszNonceCount.getD "") ++ strBytes ":" ++
            strBytes (pszCNonce.getD "") ++ strBytes ":" ++
            strBytes (pszQop.getD "") ++ strBytes ":"
          else []
        .ok (hexEncodeBytes (h (strBytes HA1 ++ strBytes ":" ++ strBytes n ++
             strBytes ":" ++ mid ++ strBytes HA2)))

/-! ### Substitution store (`serverinfo`), request state and world state -/

/-- Hexadecimal digits of `n`, most significant first; the fuel argument is an
upper bound on the digit count so the recursion is structural. -/
def hexRepAux : Nat → Nat → List Char
  | 0, _ => []
  | fuel + 1, n =>
    if n < 16 then [hexDigitChar n]
    else hexRepAux fuel (n / 16) ++ [hexDigitChar (n % 16)]

/-- Hexadecimal digits of `n`, most significant first (Python `"%x" % n`). -/
def hexRep (n : Nat) : List Char := hexRepAux (n + 1) n

/-- Python `"%08x" % n`: hex digits left-padded with zeros to width (at
least) 8. -/
def fmt08 (n : Nat) : String :=
  String.mk (List.replicate (8 - (hexRep n).length) '0' ++ hexRep n)

/-- The base64 alphabet. -/
def b64chars : List Char :=
  "ABCDEFGHIJKLMNOPQRSTUVWXYZabcdefghijklmnopqrstuvwxyz0123456789+/".data

/-- Base64 encoding of a byte string, three bytes to four characters with `=`
padding (the layout produced by `base64.encodebytes` once its newlines are
stripped, as `gethttpbasicauth` does). -/
def b64groups : List Nat → List Char
  | [] => []
  | [a] =>
    [b64chars.getD (a / 4) 'A', b64chars.getD (a % 4 * 16) 'A', '=', '=']
  | [a, b] =>
    [b64chars.getD (a / 4) 'A', b64chars.getD (a % 4 * 16 + b / 16) 'A',
     b64chars.getD (b % 16 * 4) 'A', '=']
  | a :: b :: c :: rest =>
    b64chars.getD (a / 4) 'A' :: b64chars.getD (a % 4 * 16 + b / 16) 'A' ::
    b64chars.getD (b % 16 * 4 + c / 64) 'A' :: b64chars.getD (c % 64) 'A' ::
    b64groups rest

/-- Modelled from the spec: the substitution store lives in `serverinfo`,
which is not among the source files; per spec §4.1 resolution is textual
token replacement of each table entry, applied to the text. -/
def applyTable (table : List (String × String)) (text : String) : String :=
  table.foldl (fun t p => replaceStr t p.1 p.2) text

/-- The server-information / manager state a `request` reads: credentials,
auth type, feature set, data directory, and the two substitution tiers
(static and extra).  The substitution store itself is modelled from the
spec (§4.1), the rest mirrors the attributes `request.py` reads. -/
structure SInfo where
  user : String
  pswd : String
  authtype : String
  dataDir : String
  features : Finset String
  statics : List (String × String)
  extras : List (String × String)

/-- Modelled from the spec: `serverinfo.subs`, static-tier resolution. -/
def subs (si : SInfo) (t : String) : String := applyTable si.statics t

/-- Modelled from the spec: `serverinfo.subs` with an explicit private
table (spec §4.3 step (e)). -/
def subsWith (table : List (String × String)) (t : String) : String :=
  applyTable table t

/-- Modelled from the spec: `serverinfo.extrasubs`, extra-tier resolution. -/
def extrasubs (si : SInfo) (t : String) : String := applyTable si.extras t

/-- Modelled from the spec: `serverinfo.hasextrasubs`. -/
def hasextrasubs (si : SInfo) : Bool := !si.extras.isEmpty

/-- Modelled from the spec: `serverinfo.addextrasubs` inserts or overwrites
extra-substitution entries. -/
def addextrasubs (si : SInfo) (kvs : List (String × String)) : SInfo :=
  {si with extras := kvs.foldl (fun e kv => aset e kv.1 kv.2) si.extras}

/-- A parsed digest challenge plus the mutable fields `gethttpdigestauth`
adds to it (`nc`, a default `cnonce`, `max-nonce-time`).  Python dict
lookups that may miss are `Option`. -/
structure Details where
  realm : Option String
  nonce : Option String
  qop : Option String
  algorithm : Option String
  cnonce : Option String
  ncStr : Option String
  maxNonceTime : Nat

/-- The body (`data`) element of a request (`request.py` class `data`),
including the transient `nextpath` attribute pinned by `getNextData`. -/
structure DataSpec where
  content_type : String
  filepath : String
  value : String
  substitutions : List (String × String)
  substitute : Bool
  generate : Bool
  generator : Option String
  nextpath : Option String

/-- The fields of the `request` class that the verified operations read and
write.  `dataList` is the transient directory cursor attribute. -/
structure Req where
  user : String
  pswd : String
  method : String
  ruri : String
  auth : Bool
  count : Nat
  headers : List (String × String)
  data : Option DataSpec
  require_features : Finset String
  exclude_features : Finset String
  dataList : Option (List String)

/-- The process-wide mutable state of digest authentication: the per-user
challenge cache (`manager.digestCache`), the class-level nonce-count table
(`request.nc`, keyed by the challenge's nonce, which may be absent), the
current clock, the digest challenge the server would currently return to an
unauthenticated `OPTIONS` probe (none = no 401/Digest answer), and the uuid
generation counter. -/
structure World where
  cache : List (String × Details)
  ncTable : List (Option String × Nat)
  now : Nat
  challenge : Option Details
  uuidCount : Nat

/-- Modelled from the spec: `uuid.uuid4()` produces a freshly generated
unique identifier; modelled as an injective function of the generation
counter. -/
def genUUID (n : Nat) : String := String.mk ('u' :: List.replicate n 'x')

/-- `[self.user, si.user][self.user == ""]` (`request.py` line 226). -/
def effUser (r : Req) (si : SInfo) : String :=
  if r.user = "" then si.user else r.user

/-- `[self.pswd, si.pswd][self.pswd == ""]` (`request.py` line 227). -/
def effPswd (r : Req) (si : SInfo) : String :=
  if r.pswd = "" then si.pswd else r.pswd

/-- The query-string exception of `getURI`: rewrite the placeholder only if
there is no `?`, or the first `?` comes after the first placeholder. -/
def starOK (u pat : List Char) : Bool :=
  !containsC u ['?'] ||
    decide ((findIdx u ['?']).getD 0 > (findIdx u pat).getD 0)

/-- `request.getURI` (`request.py` lines 187–195): apply extra substitutions,
then rewrite `**` with a fresh uuid (consuming the generation counter), or
else `##` with the repetition count, each under the query-string exception. -/
def getURI (si : SInfo) (ruri : String) (count uc : Nat) : String × Nat :=
  let uri := extrasubs si ruri
  let u := uri.data
  if containsC u ['*', '*'] then
    if starOK u ['*', '*'] then
      (String.mk (replaceC u ['*', '*'] (genUUID uc).data), uc + 1)
    else (uri, uc)
  else if containsC u ['#', '#'] then
    if starOK u ['#', '#'] then
      (String.mk (replaceC u ['#', '#'] (Nat.repr count).data), uc)
    else (uri, uc)
  else (uri, uc)

/-- The nonce-count bump of `gethttpdigestauth` (`request.py` lines
270–273): first use of a nonce yields 1, later uses increment. -/
def bumpNC (t : List (Option String × Nat)) (k : Option String) :
    List (Option String × Nat) × Nat :=
  match alookup t k with
  | none => (aset t k 1, 1)
  | some n => (aset t k (n + 1), n + 1)

/-- The challenge-harvesting probe of `gethttpdigestauth` (`request.py`
lines 231–266): an unauthenticated `OPTIONS` request (whose URI resolution
consumes the uuid counter); a 401 answer carrying a Digest challenge is
parsed, stamped with expiry `now + 600`, and cached for the user. -/
def probeStep (si : SInfo) (r : Req) (w : World) (user : String) :
    Option Details × World × Bool :=
  let w1 := {w with uuidCount := (getURI si r.ruri r.count w.uuidCount).2}
  match w.challenge with
  | none => (none, w1, true)
  | some c =>
    let d := {c with maxNonceTime := w.now + 600}
    (some d, {w1 with cache := aset w1.cache user d}, true)

/-- The challenge-selection phase of `gethttpdigestauth` (`request.py`
lines 228–266): reuse the cached challenge while `now < max-nonce-time`,
otherwise probe.  The `Bool` reports whether a probe was issued. -/
def resolveDetails (si : SInfo) (r : Req) (w : World) (user : String) :
    Option Details × World × Bool :=
  match alookup w.cache user with
  | some d =>
    if w.now < d.maxNonceTime then (some d, w, false)
    else probeStep si r w user
  | none => probeStep si r w user

/-- The digest-computation and header-construction tail of
`gethttpdigestauth` (`request.py` lines 278–298), applied after the
nonce-count/cnonce mutation: `d1` is the (possibly mutated) challenge and
`alg` the already-defaulted algorithm name. -/
def digestTail (si : SInfo) (r : Req) (user pswd alg : String) (d1 : Details)
    (w2 : World) : Except String String × World :=
  match calcHA1 alg (some user) d1.realm (some pswd) d1.nonce d1.cnonce none with
  | .error e => (.error e, w2)
  | .ok ha1 =>
    let ua := getURI si r.ruri r.count w2.uuidCount
    match calcResponse ha1 alg d1.nonce d1.ncStr d1.cnonce d1.qop
        r.method ua.1 none with
    | .error e => (.error e, {w2 with uuidCount := ua.2})
    | .ok dg =>
      let ub := getURI si r.ruri r.count ua.2
      let w3 := {w2 with uuidCount := ub.2}
      if truthy d1.qop then
        (.ok ("Digest username=\"" ++ user ++ "\", realm=\"" ++
              ostr d1.realm ++ "\", nonce=\"" ++ ostr d1.nonce ++
              "\", uri=\"" ++ ub.1 ++ "\", response=" ++ dg ++
              ", algorithm=" ++ alg ++ ", cnonce=\"" ++
              ostr d1.cnonce ++ "\", qop=" ++ ostr d1.qop ++ ", nc=" ++
              ostr d1.ncStr), w3)
      else
        (.ok ("Digest username=\"" ++ user ++ "\", realm=\"" ++
              ostr d1.realm ++ "\", nonce=\"" ++ ostr d1.nonce ++
              "\", uri=\"" ++ ub.1 ++ "\", response=" ++ dg ++
              ", algorithm=" ++ ostr d1.algorithm), w3)

/-- `request.gethttpdigestauth` (`request.py` lines 223–300).  Returns the
`Authorization` value (`.ok ""` when no challenge is available, `.error` for
a raised exception) together with the updated world; mutations performed
before a raise are kept, as in Python.  Note the mutations to the challenge
dict (`nc`, default `cnonce`) alias the cached entry, so they are written
back to the cache. -/
def gethttpdigestauth (si : SInfo) (r : Req) (w : World) :
    Except String String × World :=
  let user := effUser r si
  let pswd := effPswd r si
  match resolveDetails si r w user with
  | (none, w1, _) => (.ok "", w1)
  | (some d, w1, _) =>
    let dw : Details × World :=
      if truthy d.qop then
        let bc := bumpNC w1.ncTable d.nonce
        let d1 : Details :=
          {d with ncStr := some (fmt08 bc.2),
                  cnonce :=
                    some (d.cnonce.getD "D4AAE4FF-ADA1-4149-BFE2-B506F9264318")}
        (d1, {w1 with ncTable := bc.1, cache := aset w1.cache user d1})
      else (d, w1)
    digestTail si r user pswd (d.algorithm.getD "md5") dw.1 dw.2

/-- `request.gethttpbasicauth` (`request.py` lines 215–221): base64 of
`user:password` behind `Basic `, newlines stripped. -/
def gethttpbasicauth (si : SInfo) (r : Req) : String :=
  "Basic " ++ String.mk (b64groups (strBytes (effUser r si ++ ":" ++ effPswd r si)))

/-- Python `str.lower()` for ASCII strings. -/
def strLower (s : String) : String := String.mk (s.data.map Char.toLower)

/-- `request.getHeaders` (`request.py` lines 197–213): write the
extra-substituted values back into the stored header dict, then inject
`Content-Type` from the body spec and `Authorization` per the auth type.
The returned map is the request's stored map; a digest failure propagates
as an exception. -/
def getHeaders (si : SInfo) (r : Req) (w : World) :
    Except String (List (String × String) × Req × World) :=
  let h1 := r.headers.map (fun kv => (kv.1, extrasubs si kv.2))
  let h2 := match r.data with
    | some d => aset h1 "Content-Type" d.content_type
    | none => h1
  if r.auth then
    if strLower si.authtype = "basic" then
      let h3 := aset h2 "Authorization" (gethttpbasicauth si r)
      .ok (h3, {r with headers := h3}, w)
    else if strLower si.authtype = "digest" then
      match gethttpdigestauth si r w with
      | (.ok s, w1) =>
        let h3 := aset h2 "Authorization" s
        .ok (h3, {r with headers := h3}, w1)
      | (.error e, _) => .error e
    else .ok (h2, {r with headers := h2}, w)
  else .ok (h2, {r with headers := h2}, w)

/-! ### Body resolution and directory iteration -/

/-- `os.path.join` for the cases the harness exercises. -/
def pjoin (a b : String) : String :=
  if a = "" then b
  else match b.data with
    | '/' :: _ => b
    | _ => if a.data.getLast? = some '/' then a ++ b else a ++ "/" ++ b

/-- `request.getFilePath` (`request.py` lines 302–306). -/
def getFilePath (si : SInfo) (r : Req) : String :=
  match r.data with
  | some d => if si.dataDir ≠ "" then pjoin si.dataDir d.filepath else d.filepath
  | none => ""

/-- `request.getData` (`request.py` lines 308–330).  `fs` maps a path to the
file's content; `genCal` stands for the regex-based calendar rewrite
`generateCalendarData` and `genOut` for a generator plugin's output, both
outside the claims checked here.  Returns the body text and the updated
substitution store (the `$request_count:` capture). -/
def getData (si : SInfo) (fs : String → String) (genCal genOut : String → String)
    (r : Req) : String × SInfo :=
  match r.data with
  | none => ("", si)
  | some d =>
    let raw :=
      if d.value ≠ "" then d.value
      else if d.filepath ≠ "" then fs (d.nextpath.getD (getFilePath si r))
      else ""
    let s1 := subs si raw
    let si1 := addextrasubs si [("$request_count:", Nat.repr r.count)]
    let s2 := extrasubs si1 s1
    let s3 := if !d.substitutions.isEmpty then subsWith d.substitutions s2 else s2
    let s4 :=
      if d.generate then
        if d.content_type.startsWith "text/calendar" then genCal s3 else s3
      else
        match d.generator with
        | some g => genOut g
        | none => s3
    (s4, si1)

/-- Python `path.startswith(".")` negated: a visible directory entry. -/
def nonHidden (s : String) : Bool :=
  match s.data with
  | '.' :: _ => false
  | _ => true

/-- Lexicographic comparison of strings by code point, as Python `sorted`
compares `str` values. -/
def lexLe : List Char → List Char → Bool
  | [], _ => true
  | _ :: _, [] => false
  | a :: as, b :: bs =>
    if a.toNat < b.toNat then true
    else if b.toNat < a.toNat then false
    else lexLe as bs

/-- Python `<=` on strings. -/
abbrev StrLE : String → String → Prop := fun a b => lexLe a.data b.data = true

instance : DecidableRel StrLE := fun a b => instDecidableEqBool (lexLe a.data b.data) true

instance : IsTotal String StrLE where
  total := by
    have h : ∀ x y : List Char, lexLe x y = true ∨ lexLe y x = true := by
      intro x
      induction x with
      | nil => intro y; left; rfl
      | cons a as ih =>
        intro y
        cases y with
        | nil => right; rfl
        | cons b bs =>
          simp only [lexLe]
          rcases Nat.lt_trichotomy a.toNat b.toNat with hlt | heq | hgt
          · left; simp [hlt]
          · have h1 : ¬ a.toNat < b.toNat := by omega
            have h2 : ¬ b.toNat < a.toNat := by omega
            rcases ih bs with h3 | h3
            · left; simp [h1, h2, h3]
            · right; simp [h1, h2, h3]
          · right; simp [hgt, Nat.lt_asymm hgt]
    exact fun a b => h a.data b.data

instance : IsTrans String StrLE where
  trans := by
    have h : ∀ x y z : List Char, lexLe x y = true → lexLe y z = true →
        lexLe x z = true := by
      intro x
      induction x with
      | nil => intro y z _ _; rfl
      | cons a as ih =>
        intro y z hxy hyz
        cases y with
        | nil => simp [lexLe] at hxy
        | cons b bs =>
          cases z with
          | nil => simp [lexLe] at hyz
          | cons c cs =>
            simp only [lexLe] at hxy hyz ⊢
            rcases Nat.lt_trichotomy a.toNat c.toNat with hac | hac | hac
            · simp [hac]
            · have h1 : ¬ a.toNat < c.toNat := by omega
              have h2 : ¬ c.toNat < a.toNat := by omega
              simp only [h1, h2, if_false, if_neg, ite_false]
              by_cases hab : a.toNat < b.toNat
              · by_cases hbc : b.toNat < c.toNat
                · omega
                · have hcb : c.toNat < b.toNat := by
                    by_contra hcb
                    have : b.toNat = c.toNat := by omega
                    simp [hbc, this] at hyz
                    have : a.toNat = b.toNat := by omega
                    omega
                  simp [hbc, hcb] at hyz
              · by_cases hba : b.toNat < a.toNat
                · simp [hab, hba] at hxy
                · have hab2 : a.toNat = b.toNat := by omega
                  by_cases hbc : b.toNat < c.toNat
                  · omega
                  · by_cases hcb : c.toNat < b.toNat
                    · simp [hbc, hcb] at hyz
                    · have hbc2 : b.toNat = c.toNat := by omega
                      simp only [if_neg hab, if_neg hba] at hxy
                      simp only [if_neg hbc, if_neg hcb] at hyz
                      exact ih bs cs hxy hyz
            · have h1 : ¬ a.toNat < b.toNat ∨ ¬ b.toNat < c.toNat := by omega
              rcases h1 with h1 | h1
              · by_cases hba : b.toNat < a.toNat
                · simp [h1, hba] at hxy
                · have : a.toNat = b.toNat := by omega
                  have h2 : b.toNat < c.toNat → False := by omega
                  by_cases hcb : c.toNat < b.toNat
                  · simp [show ¬ b.toNat < c.toNat from fun hh => h2 hh, hcb] at hyz
                  · omega
              · by_cases hcb : c.toNat < b.toNat
                · simp [h1, hcb] at hyz
                · have : b.toNat = c.toNat := by omega
                  by_cases hba : b.toNat < a.toNat
                  · have h3 : ¬ a.toNat < b.toNat := by omega
                    simp [h3, hba] at hxy
                  · omega
    exact fun a b c => h a.data b.data c.data

/-- `sorted([path for path in os.listdir(...) if not path.startswith(".")])`
(`request.py` lines 334 and 346). -/
def sortedEntries (entries : List String) : List String :=
  (entries.filter nonHidden).insertionSort StrLE

/-- `request.getNextData` (`request.py` lines 332–343) on the directory
listing `entries`, the base path `fp`, the cursor `st` (`dataList`, absent =
`none`) and the body spec: pop the next non-hidden entry in sorted order and
pin it as `nextpath`, or report exhaustion and clear cursor and pin. -/
def getNextData (entries : List String) (fp : String)
    (st : Option (List String)) (d : DataSpec) :
    Bool × Option (List String) × DataSpec :=
  let dl := st.getD (sortedEntries entries)
  match dl with
  | e :: rest => (true, some rest, {d with nextpath := some (pjoin fp e)})
  | [] => (false, none, {d with nextpath := none})

/-- `request.hasNextData` (`request.py` lines 345–347): a non-consuming peek
at the directory listing. -/
def hasNextData (entries : List String) : Bool :=
  !(sortedEntries entries).isEmpty

/-! ### Feature gating -/

/-- `request.missingFeatures` (`request.py` lines 181–182). -/
def requestMissingFeatures (r : Req) (si : SInfo) : Finset String :=
  r.require_features \ si.features

/-- `request.excludedFeatures` (`request.py` lines 184–185). -/
def requestExcludedFeatures (r : Req) (si : SInfo) : Finset String :=
  r.exclude_features ∩ si.features

/-- The feature fields of a `testsuite` (`testsuite.py`). -/
structure TestSuite where
  require_features : Finset String
  exclude_features : Finset String

/-- `testsuite.missingFeatures` (`testsuite.py` lines 50–51). -/
def testsuiteMissingFeatures (t : TestSuite) (si : SInfo) : Finset String :=
  t.require_features \ si.features

/-- `testsuite.excludedFeatures` (`testsuite.py` lines 53–54). -/
def testsuiteExcludedFeatures (t : TestSuite) (si : SInfo) : Finset String :=
  t.exclude_features ∩ si.features

/-! ### Argument handling of `verify.doVerify` and `generator.doGenerate`

Python argument lists are mutable objects; to state the deep-copy claim we
model an explicit heap of list objects (allocation appends a cell, a
reference is the cell's index), so that "the plugin mutates the lists it was
given" is expressible and "the spec's stored lists are untouched" is a real
frame property. -/

/-- The heap of Python list-of-string objects. -/
abbrev Heap := List (List String)

/-- Read a list object (out-of-range reads give `[]`; valid references are
always in range). -/
def hread (h : Heap) (i : Nat) : List String := h.getD i []

/-- Allocate a new list object; returns the heap and the fresh reference. -/
def halloc (h : Heap) (v : List String) : Heap × Nat := (h ++ [v], h.length)

/-- Overwrite the list object at reference `i`. -/
def hwrite (h : Heap) (i : Nat) (v : List String) : Heap := h.set i v

/-- The re-resolution pass of `doVerify`/`doGenerate` (`request.py` lines
605–608 and 538–541): for each argument name, build a new list of
extra-substituted values and rebind the stored dict to it. -/
def reResolveArgs (si : SInfo) : Heap → List (String × Nat) →
    Heap × List (String × Nat)
  | h, [] => (h, [])
  | h, (k, r) :: rest =>
    let a := halloc h ((hread h r).map (extrasubs si))
    let z := reResolveArgs si a.1 rest
    (z.1, (k, a.2) :: z.2)

/-- The clone pass (`request.py` lines 614 and 547):
`args = dict((k, list(v)) for k, v in self.args.items())`, a fresh list per
argument name. -/
def cloneArgs : Heap → List (String × Nat) → Heap × List (String × Nat)
  | h, [] => (h, [])
  | h, (k, r) :: rest =>
    let a := halloc h (hread h r)
    let z := cloneArgs a.1 rest
    (z.1, (k, a.2) :: z.2)

/-- The argument handling shared by `verify.doVerify` and
`generator.doGenerate`: re-resolve the stored argument lists against extra
substitutions when any exist, then clone the mapping for the plugin call.
Returns the heap, the spec's stored arguments after the call, and the
arguments handed to the plugin. -/
def pluginCallArgs (si : SInfo) (h : Heap) (args : List (String × Nat)) :
    Heap × List (String × Nat) × List (String × Nat) :=
  let rr := if hasextrasubs si then reResolveArgs si h args else (h, args)
  let cl := cloneArgs rr.1 rr.2
  (cl.1, rr.2, cl.2)

/-- `verify.doVerify`'s argument handling (`request.py` lines 602–616). -/
def doVerifyArgs (si : SInfo) (h : Heap) (args : List (String × Nat)) :
    Heap × List (String × Nat) × List (String × Nat) :=
  pluginCallArgs si h args

/-- `generator.doGenerate`'s argument handling (`request.py` lines
535–549). -/
def doGenerateArgs (si : SInfo) (h : Heap) (args : List (String × Nat)) :
    Heap × List (String × Nat) × List (String × Nat) :=
  pluginCallArgs si h args

/-- An arbitrary sequence of in-place list mutations a plugin might perform
on references it holds. -/
def applyWrites (h : Heap) : List (Nat × List String) → Heap
  | [] => h
  | (i, v) :: rest => applyWrites (hwrite h i v) rest

/-! ### The free-busy verifier (`verifiers/postFreeBusy.py`) -/

/-- A `VFREEBUSY` component as the verifier reads it: its `ATTENDEE` values
and its `FREEBUSY` properties (optional `FBTYPE` parameter and period
texts). -/
structure FBComp where
  attendees : List String
  fbprops : List (Option String × List String)

/-- A parsed calendar as the verifier reads it: its `VFREEBUSY` components
and its `VEVENT` count (the external pycalendar library provides parsing;
a parse failure is `none` from the `parseCal` argument below). -/
structure Cal where
  vfreebusy : List FBComp
  nEvents : Nat

/-- The `FREEBUSY`-property partition of the verifier
(`postFreeBusy.py` lines 86–102): periods dispatch on `FBTYPE` (default
`BUSY`), an unknown type raises `ValueError`. -/
def partitionFB : List (Option String × List String) →
    Except String (List String × List String × List String)
  | [] => .ok ([], [], [])
  | (fbt, ps) :: rest =>
    let t := fbt.getD "BUSY"
    if t = "BUSY" then
      (partitionFB rest).map (fun z => (ps ++ z.1, z.2.1, z.2.2))
    else if t = "BUSY-TENTATIVE" then
      (partitionFB rest).map (fun z => (z.1, ps ++ z.2.1, z.2.2))
    else if t = "BUSY-UNAVAILABLE" then
      (partitionFB rest).map (fun z => (z.1, z.2.1, ps ++ z.2.2))
    else .error ("        HTTP response data is invalid: Unknown FBTYPE: " ++ t)

/-- The calendar-data loop of `Verifier.verify` (`postFreeBusy.py` lines
57–136): each `calendar-data` text is parsed (a parse failure returns the
not-a-calendar diagnostic), must contain exactly one `VFREEBUSY`, and is
skipped unless one of its attendees is still expected; a matching calendar
has its periods and event count compared, then the loop breaks.  Returns
the attendees still unmatched. -/
def fbLoop (parseCal : String → Option Cal)
    (busy tentative unavailable : List String) (eventsOpt : Option Nat)
    (users : List String) : List String → Except String (List String)
  | [] => .ok users
  | txt :: rest =>
    match parseCal txt with
    | none => .error "        HTTP response data is not a calendar"
    | some cal =>
      if cal.vfreebusy.length ≠ 1 then
        .error "        HTTP response data is invalid: Wrong number or unexpected components in calendar"
      else
        let fb := cal.vfreebusy.headD ⟨[], []⟩
        match fb.attendees.find? (fun a => users.contains a) with
        | none => fbLoop parseCal busy tentative unavailable eventsOpt users rest
        | some a =>
          let users1 := users.erase a
          match partitionFB fb.fbprops with
          | .error e => .error e
          | .ok z =>
            if busy.length ≠ z.1.length ∨ unavailable.length ≠ z.2.2.length ∨
                tentative.length ≠ z.2.1.length then
              .error "        HTTP response data is invalid: Period list sizes do not match."
            else if (symmDiff z.1.toFinset busy.toFinset).Nonempty then
              .error "        HTTP response data is invalid: Busy periods do not match"
            else if (symmDiff z.2.1.toFinset tentative.toFinset).Nonempty then
              .error "        HTTP response data is invalid: Busy-tentative periods do not match"
            else if (symmDiff z.2.2.toFinset unavailable.toFinset).Nonempty then
              .error "        HTTP response data is invalid: Busy-unavailable periods do not match"
            else
              match eventsOpt with
              | some n =>
                if cal.nEvents ≠ n then
                  .error "        HTTP response data is invalid: Number of VEVENTs does not match"
                else .ok users1
              | none => .ok users1

/-- `Verifier.verify` of `verifiers/postFreeBusy.py` (lines 34–148).
`xmlData` is `none` when the response body is not well-formed XML, otherwise
the texts of the `calendar-data` elements the `findall` yields; `events` is
the already-`int`-converted `events` argument list. -/
def fbVerify (parseCal : String → Option Cal) (status : Nat)
    (xmlData : Option (List String))
    (attendee busy tentative unavailable : List String)
    (events : List Nat) : Bool × String :=
  if status ≠ 200 then
    (false, "        HTTP Status Code Wrong: " ++ Nat.repr status)
  else
    let eventsOpt := if events.length = 1 then some (events.headD 0) else none
    match xmlData with
    | none => (false, "           Could not parse proper XML response\n")
    | some texts =>
      match fbLoop parseCal busy tentative unavailable eventsOpt attendee texts with
      | .error msg => (false, msg)
      | .ok users1 =>
        if users1.length ≠ 0 then
          (false, "           Could not find attendee/calendar data in XML response\n")
        else (true, "")

/-- The body-resolution order exactly as claim C5 words it, for comparison
with `getData`: the raw text comes from the literal value when non-empty,
otherwise from the pinned next path when one is set, otherwise from the
spec's own file path; the substitution pipeline is then the same. -/
def getDataClaimed (si : SInfo) (fs : String → String)
    (genCal genOut : String → String) (r : Req) : String × SInfo :=
  match r.data with
  | none => ("", si)
  | some d =>
    let raw :=
      if d.value ≠ "" then d.value
      else
        match d.nextpath with
        | some p => fs p
        | none => fs (getFilePath si r)
    let s1 := subs si raw
    let si1 := addextrasubs si [("$request_count:", Nat.repr r.count)]
    let s2 := extrasubs si1 s1
    let s3 := if !d.substitutions.isEmpty then subsWith d.substitutions s2 else s2
    let s4 :=
      if d.generate then
        if d.content_type.startsWith "text/calendar" then genCal s3 else s3
      else
        match d.generator with
        | some g => genOut g
        | none => s3
    (s4, si1)

/-- Iterate `getNextData` for a given number of calls, recording each call's
return value and the `nextpath` it leaves pinned, together with the final
cursor and body-spec state. -/
def runNextData (entries : List String) (fp : String) :
    Nat → Option (List String) × DataSpec →
      List (Bool × Option String) × (Option (List String) × DataSpec)
  | 0, st => ([], st)
  | k + 1, st =>
    let x := getNextData entries fp st.1 st.2
    let z := runNextData entries fp k (x.2.1, x.2.2)
    ((x.1, x.2.2.nextpath) :: z.1, z.2)

/-! ### Concrete fixtures used by witnesses -/

/-- A sample cached digest challenge: realm and nonce present, `qop=auth`,
no algorithm field (so `md5` is defaulted), expiry at time 1000. -/
def dSample : Details := ⟨some "realm1", some "nonce1", some "auth", none, none, none, 1000⟩

/-- A sample server-information record with digest auth configured. -/
def siSample : SInfo := ⟨"alice", "pw", "digest", "", ∅, [], []⟩

/-- A sample request: blank credential overrides, method `GET`, one URI. -/
def rSample : Req := ⟨"", "", "GET", "/cal/", true, 1, [], none, ∅, ∅, none⟩

/-- A sample world: `dSample` cached for `alice`, empty nonce-count table,
clock at 5, no live challenge. -/
def wSample : World := ⟨[("alice", dSample)], [], 5, none, 0⟩

end CalDav

example :
    CalDav.hexEncodeBytes (CalDav.md5Bytes (CalDav.strBytes "abc")) =
      "900150983cd24fb0d6963f7d28e17f72" := by decide

example :
    CalDav.sortedEntries ["b.ics", ".hidden", "a.ics"] = ["a.ics", "b.ics"] := by
  decide

example : CalDav.fmt08 1 = "00000001" := by decide

example :
    CalDav.gethttpbasicauth
      ⟨"alice", "pass", "basic", "", ∅, [], []⟩
      ⟨"", "", "GET", "/", true, 1, [], none, ∅, ∅, none⟩ =
      "Basic YWxpY2U6cGFzcw==" := by decide

example :
    CalDav.calcHA1 "md5" (some "Mufasa") (some "testrealm@host.com")
      (some "Circle Of Life") (some "dcd98b7102dd2f0e8b11d0f600bfb0c093")
      (some "0a4f113b") none = .ok "939e7578ed9e3c518a452acee763bce9" := rfl

example :
    CalDav.calcResponse "939e7578ed9e3c518a452acee763bce9" "md5"
      (some "dcd98b7102dd2f0e8b11d0f600bfb0c093") (some "00000001")
      (some "0a4f113b") (some "auth") "GET" "/dir/index.html" none =
      .ok "6629fae49393a05397450978507c4ef1" := rfl

namespace CalDav

/-! ### Helper lemmas about association lists -/

theorem alookup_aset_self {α β : Type} [DecidableEq α] (l : List (α × β))
    (k : α) (v : β) : alookup (aset l k v) k = some v := by
  induction l with
  | nil => simp [aset, alookup]
  | cons p t ih =>
    obtain ⟨a, b⟩ := p
    by_cases h : a = k
    · simp [aset, h, alookup]
    · simp [aset, h, alookup, ih]

theorem alookup_aset_ne {α β : Type} [DecidableEq α] (l : List (α × β))
    (k k' : α) (v : β) (h : k' ≠ k) :
    alookup (aset l k v) k' = alookup l k' := by
  induction l with
  | nil =>
    simp only [aset, alookup]
    rw [if_neg (Ne.symm h)]
  | cons p t ih =>
    obtain ⟨a, b⟩ := p
    by_cases ha : a = k
    · subst ha
      simp only [aset, if_pos rfl, alookup]
      rw [if_neg (Ne.symm h), if_neg (Ne.symm h)]
    · simp [aset, ha, alookup, ih]

theorem alookup_map_val {α β γ : Type} [DecidableEq α] (l : List (α × β))
    (f : β → γ) (k : α) :
    alookup (l.map (fun kv => (kv.1, f kv.2))) k = (alookup l k).map f := by
  induction l with
  | nil => simp [alookup]
  | cons p t ih =>
    obtain ⟨a, b⟩ := p
    by_cases h : a = k
    · simp [alookup, h]
    · simp [alookup, h, ih]

/-- The probe phase always reports that a probe was issued. -/
theorem probeStep_probed (si : SInfo) (r : Req) (w : World) (user : String) :
    (probeStep si r w user).2.2 = true := by
  unfold probeStep
  cases w.challenge <;> rfl

/-- C8: for every request and test suite, `missingFeatures` is exactly the
required-feature set minus the server's feature set and `excludedFeatures`
exactly the intersection of the excluded set with it; in particular
`missing({"ctag"}, {"etag"}) = {"ctag"}` and
`excluded({"ctag"}, {"ctag","etag"}) = {"ctag"}`. -/
theorem C8_feature_gating :
    (∀ (r : Req) (si : SInfo) (f : String),
        (f ∈ requestMissingFeatures r si ↔
          f ∈ r.require_features ∧ f ∉ si.features) ∧
        (f ∈ requestExcludedFeatures r si ↔
          f ∈ r.exclude_features ∧ f ∈ si.features)) ∧
    (∀ (t : TestSuite) (si : SInfo) (f : String),
        (f ∈ testsuiteMissingFeatures t si ↔
          f ∈ t.require_features ∧ f ∉ si.features) ∧
        (f ∈ testsuiteExcludedFeatures t si ↔
          f ∈ t.exclude_features ∧ f ∈ si.features)) ∧
    requestMissingFeatures
      ⟨"", "", "", "", true, 1, [], none, {"ctag"}, ∅, none⟩
      ⟨"", "", "", "", {"etag"}, [], []⟩ = {"ctag"} ∧
    requestExcludedFeatures
      ⟨"", "", "", "", true, 1, [], none, ∅, {"ctag"}, none⟩
      ⟨"", "", "", "", {"ctag", "etag"}, [], []⟩ = {"ctag"} := by
  refine ⟨?_, ?_, ?_, ?_⟩
  · exact fun r si f => ⟨Finset.mem_sdiff, Finset.mem_inter⟩
  · exact fun t si f => ⟨Finset.mem_sdiff, Finset.mem_inter⟩
  · decide
  · decide

/-- C3: the cached digest challenge for a user is reused exactly when a
cache entry exists and its `max-nonce-time` is strictly above the current
time; a reuse returns the cached entry unchanged and issues no probe; when
the entry is absent or stale a fresh `OPTIONS` probe is issued, and a
challenge harvested by the probe is cached with expiry `now + 600`, so an
entry captured at time `t` is reused exactly while `now < t + 600`. -/
theorem C3_digest_cache_reuse (si : SInfo) (r : Req) (w : World)
    (user : String) :
    ((resolveDetails si r w user).2.2 = false ↔
      ∃ d, alookup w.cache user = some d ∧ w.now < d.maxNonceTime) ∧
    (∀ d, alookup w.cache user = some d → w.now < d.maxNonceTime →
      resolveDetails si r w user = (some d, w, false)) ∧
    (∀ d, alookup w.cache user = some d → ¬ w.now < d.maxNonceTime →
      resolveDetails si r w user = probeStep si r w user) ∧
    (alookup w.cache user = none →
      resolveDetails si r w user = probeStep si r w user) ∧
    (∀ c, w.challenge = some c →
      (probeStep si r w user).1 = some {c with maxNonceTime := w.now + 600} ∧
      alookup (probeStep si r w user).2.1.cache user =
        some {c with maxNonceTime := w.now + 600}) ∧
    (w.challenge = none → (probeStep si r w user).1 = none) ∧
    (∀ d t, alookup w.cache user = some d → d.maxNonceTime = t + 600 →
      ((resolveDetails si r w user).2.2 = false ↔ w.now < t + 600)) := by
  have hiff : (resolveDetails si r w user).2.2 = false ↔
      ∃ d, alookup w.cache user = some d ∧ w.now < d.maxNonceTime := by
    unfold resolveDetails
    cases hc : alookup w.cache user with
    | none =>
      simp [probeStep_probed si r w user, hc]
    | some d =>
      by_cases ht : w.now < d.maxNonceTime
      · simp [ht, hc]
      · simp [ht, hc, probeStep_probed si r w user]
  refine ⟨hiff, ?_, ?_, ?_, ?_, ?_, ?_⟩
  · intro d hc ht
    unfold resolveDetails
    rw [hc]
    simp [ht]
  · intro d hc ht
    unfold resolveDetails
    rw [hc]
    simp [ht]
  · intro hc
    unfold resolveDetails
    rw [hc]
  · intro c hch
    constructor
    · unfold probeStep
      rw [hch]
    · unfold probeStep
      rw [hch]
      simp [alookup_aset_self]
  · intro hch
    unfold probeStep
    rw [hch]
  · intro d t hc hmt
    rw [hiff]
    constructor
    · rintro ⟨d', hd', ht'⟩
      rw [hc] at hd'
      cases hd'
      rw [hmt] at ht'
      exact ht'
    · intro ht
      exact ⟨d, hc, by rw [hmt]; exact ht⟩

/-- Witness for C3: with `dSample` cached for `alice` and the clock at 5
(before expiry 1000), the cached challenge is reused with no probe. -/
theorem C3_digest_cache_reuse_witness :
    resolveDetails siSample rSample wSample "alice" =
      (some dSample, wSample, false) :=
  (C3_digest_cache_reuse siSample rSample wSample "alice").2.1 dSample rfl
    (by decide)

/-- A non-empty string has `isEmpty = false`. -/
theorem isEmpty_false_of_ne (s : String) (h : s ≠ "") : s.isEmpty = false := by
  cases hb : s.isEmpty with
  | true => exact absurd ((String.isEmpty_iff s).mp hb) h
  | false => rfl

/-- Truthiness of a non-empty string. -/
theorem truthy_some_ne (s : String) (h : s ≠ "") : truthy (some s) = true := by
  simp [truthy, isEmpty_false_of_ne s h]

/-- C1: for each supported algorithm name (`md5`, `md5-sess`, `sha`),
`calcHA1` returns the hex digest of `user:realm:password`, re-hashed as
`hash(HA1:nonce:cnonce)` for the session variant `md5-sess`; `calcResponse`
returns `hex(hash(HA1:nonce:HA2))` without qop and
`hex(hash(HA1:nonce:nc:cnonce:qop:HA2))` with qop, where
`HA2 = hex(hash(method:uri))` with the entity hash folded in under
`auth-int`; the computation is deterministic and matches the RFC 2617
published MD5 test vector. -/
theorem C1_digest_response :
    (∀ u r p n c : String,
      calcHA1 "md5" (some u) (some r) (some p) (some n) (some c) none =
        .ok (hexEncodeBytes (md5Bytes
          (strBytes u ++ strBytes ":" ++ strBytes r ++ strBytes ":" ++
           strBytes p)))) ∧
    (∀ u r p n c : String,
      calcHA1 "sha" (some u) (some r) (some p) (some n) (some c) none =
        .ok (hexEncodeBytes (sha1Bytes
          (strBytes u ++ strBytes ":" ++ strBytes r ++ strBytes ":" ++
           strBytes p)))) ∧
    (∀ u r p n c : String,
      calcHA1 "md5-sess" (some u) (some r) (some p) (some n) (some c) none =
        .ok (hexEncodeBytes (md5Bytes
          (md5Bytes (strBytes u ++ strBytes ":" ++ strBytes r ++
             strBytes ":" ++ strBytes p) ++
           strBytes ":" ++ strBytes n ++ strBytes ":" ++ strBytes c)))) ∧
    (∀ alg h, algorithms alg = some h →
      ∀ (HA1 n m uri : String) (ncv cnv he : Option String),
        calcResponse HA1 alg (some n) ncv cnv none m uri he =
          .ok (hexEncodeBytes (h (strBytes HA1 ++ strBytes ":" ++
            strBytes n ++ strBytes ":" ++
            strBytes (hexEncodeBytes (h (strBytes m ++ strBytes ":" ++
              strBytes uri))))))) ∧
    (∀ alg h, algorithms alg = some h →
      ∀ (HA1 n m uri ncs cns q : String) (he : Option String),
        ncs ≠ "" → cns ≠ "" → q ≠ "" → q ≠ "auth-int" →
        calcResponse HA1 alg (some n) (some ncs) (some cns) (some q) m uri he =
          .ok (hexEncodeBytes (h (strBytes HA1 ++ strBytes ":" ++
            strBytes n ++ strBytes ":" ++
            (strBytes ncs ++ strBytes ":" ++ strBytes cns ++ strBytes ":" ++
             strBytes q ++ strBytes ":") ++
            strBytes (hexEncodeBytes (h (strBytes m ++ strBytes ":" ++
              strBytes uri))))))) ∧
    (∀ alg h, algorithms alg = some h →
      ∀ HA1 n m uri ncs cns e : String, ncs ≠ "" → cns ≠ "" →
        calcResponse HA1 alg (some n) (some ncs) (some cns) (some "auth-int")
            m uri (some e) =
          .ok (hexEncodeBytes (h (strBytes HA1 ++ strBytes ":" ++
            strBytes n ++ strBytes ":" ++
            (strBytes ncs ++ strBytes ":" ++ strBytes cns ++ strBytes ":" ++
             strBytes "auth-int" ++ strBytes ":") ++
            strBytes (hexEncodeBytes (h (strBytes m ++ strBytes ":" ++
              strBytes uri ++ strBytes ":" ++ strBytes e))))))) ∧
    (∀ alg u r p n c pre,
      calcHA1 alg u r p n c pre = calcHA1 alg u r p n c pre) ∧
    (calcHA1 "md5" (some "Mufasa") (some "testrealm@host.com")
        (some "Circle Of Life") (some "dcd98b7102dd2f0e8b11d0f600bfb0c093")
        (some "0a4f113b") none = .ok "939e7578ed9e3c518a452acee763bce9") ∧
    (calcResponse "939e7578ed9e3c518a452acee763bce9" "md5"
        (some "dcd98b7102dd2f0e8b11d0f600bfb0c093") (some "00000001")
        (some "0a4f113b") (some "auth") "GET" "/dir/index.html" none =
      .ok "6629fae49393a05397450978507c4ef1") := by
  refine ⟨?_, ?_, ?_, ?_, ?_, ?_, fun _ _ _ _ _ _ _ => rfl, rfl, rfl⟩
  · intro u r p n c
    simp [calcHA1, algorithms, truthy]
  · intro u r p n c
    simp [calcHA1, algorithms, truthy]
  · intro u r p n c
    simp [calcHA1, algorithms, truthy]
  · intro alg h hh HA1 n m uri ncv cnv he
    simp [calcResponse, hh, truthy]
  · intro alg h hh HA1 n m uri ncs cns q he h1 h2 h3 h4
    simp [calcResponse, hh, truthy_some_ne _ h1, truthy_some_ne _ h2,
      truthy_some_ne _ h3, h4]
  · intro alg h hh HA1 n m uri ncs cns e h1 h2
    simp [calcResponse, hh, truthy, isEmpty_false_of_ne _ h1,
      isEmpty_false_of_ne _ h2, (by decide : ("auth-int" : String).isEmpty = false)]

/-- Witness for C1: the qop branch of `calcResponse` applied at concrete
inputs, its non-emptiness hypotheses discharged. -/
theorem C1_digest_response_witness :
    calcResponse "939e7578ed9e3c518a452acee763bce9" "md5"
      (some "dcd98b7102dd2f0e8b11d0f600bfb0c093") (some "00000001")
      (some "0a4f113b") (some "auth") "GET" "/dir/index.html" none =
      .ok (hexEncodeBytes (md5Bytes
        (strBytes "939e7578ed9e3c518a452acee763bce9" ++ strBytes ":" ++
         strBytes "dcd98b7102dd2f0e8b11d0f600bfb0c093" ++ strBytes ":" ++
         (strBytes "00000001" ++ strBytes ":" ++ strBytes "0a4f113b" ++
          strBytes ":" ++ strBytes "auth" ++ strBytes ":") ++
         strBytes (hexEncodeBytes (md5Bytes (strBytes "GET" ++
           strBytes ":" ++ strBytes "/dir/index.html")))))) :=
  C1_digest_response.2.2.2.2.1 "md5" md5Bytes rfl
    "939e7578ed9e3c518a452acee763bce9" "dcd98b7102dd2f0e8b11d0f600bfb0c093"
    "GET" "/dir/index.html" "00000001" "0a4f113b" "auth" none
    (by decide) (by decide) (by decide) (by decide)

end CalDav

namespace CalDav

/-! ### Helper lemmas for the nonce-count claim -/

theorem isPrefixOf_self (l : List Char) : l.isPrefixOf l = true := by
  induction l with
  | nil => rfl
  | cons c t ih => simp [List.isPrefixOf, ih]

theorem containsC_cons (c : Char) (t pat : List Char) :
    containsC (c :: t) pat = (pat.isPrefixOf (c :: t) || containsC t pat) := by
  simp only [containsC, findIdx]
  by_cases h : pat.isPrefixOf (c :: t) = true
  · simp [h]
  · simp only [Bool.not_eq_true] at h
    simp only [h, if_false, Bool.false_or]
    cases findIdx t pat <;> simp

theorem containsC_append_right (a p : List Char) :
    containsC (a ++ p) p = true := by
  induction a with
  | nil =>
    cases p with
    | nil => rfl
    | cons c t =>
      simp only [List.nil_append, containsC, findIdx, isPrefixOf_self,
        if_true, Option.isSome_some]
  | cons c t ih =>
    rw [List.cons_append, containsC_cons]
    simp [ih]

theorem containsStr_append_right (a b : String) :
    containsStr (a ++ b) b = true := by
  unfold containsStr
  rw [String.data_append]
  exact containsC_append_right a.data b.data

theorem hexRepAux_length_le :
    ∀ (fuel n k : Nat), n < 16 ^ k → 0 < k → (hexRepAux fuel n).length ≤ k := by
  intro fuel
  induction fuel with
  | zero => intro n k _ _; simp [hexRepAux]
  | succ fuel ih =>
    intro n k hn hk
    by_cases h16 : n < 16
    · simp [hexRepAux, h16]
      omega
    · have hk2 : 2 ≤ k := by
        by_contra hc
        have hk1 : k = 1 := by omega
        subst hk1
        simp at hn
        omega
      have h1 : 16 ^ k = 16 ^ (k - 1) * 16 := by
        conv_lhs => rw [show k = k - 1 + 1 by omega]
        rw [pow_succ]
      have hdiv : n / 16 < 16 ^ (k - 1) := by
        apply Nat.div_lt_of_lt_mul
        omega
      have := ih (n / 16) (k - 1) hdiv (by omega)
      simp [hexRepAux, h16, List.length_append]
      omega

theorem fmt08_length (n : Nat) (h : n < 4294967296) : (fmt08 n).length = 8 := by
  have hle : (hexRep n).length ≤ 8 := by
    apply hexRepAux_length_le (n + 1) n 8
    · have : (16 : Nat) ^ 8 = 4294967296 := by norm_num
      omega
    · omega
  show (List.replicate (8 - (hexRep n).length) '0' ++ hexRep n).length = 8
  simp [List.length_append, List.length_replicate]
  omega

theorem resolveDetails_ncTable (si : SInfo) (r : Req) (w : World)
    (user : String) : (resolveDetails si r w user).2.1.ncTable = w.ncTable := by
  unfold resolveDetails
  cases alookup w.cache user with
  | none =>
    dsimp only
    unfold probeStep
    cases w.challenge <;> rfl
  | some d =>
    dsimp only
    by_cases ht : w.now < d.maxNonceTime
    · rw [if_pos ht]
    · rw [if_neg ht]
      unfold probeStep
      cases w.challenge <;> rfl

theorem digestTail_world (si : SInfo) (r : Req) (u p alg : String)
    (d1 : Details) (w2 : World) :
    ∃ uc, (digestTail si r u p alg d1 w2).2 = {w2 with uuidCount := uc} := by
  unfold digestTail
  cases calcHA1 alg (some u) d1.realm (some p) d1.nonce d1.cnonce none with
  | error e => exact ⟨w2.uuidCount, rfl⟩
  | ok ha1 =>
    dsimp only
    cases calcResponse ha1 alg d1.nonce d1.ncStr d1.cnonce d1.qop r.method
        (getURI si r.ruri r.count w2.uuidCount).1 none with
    | error e => exact ⟨(getURI si r.ruri r.count w2.uuidCount).2, rfl⟩
    | ok dg =>
      dsimp only
      by_cases hq : truthy d1.qop = true
      · rw [if_pos hq]
        exact ⟨_, rfl⟩
      · rw [if_neg hq]
        exact ⟨_, rfl⟩

theorem bumpNC_lookup (t : List (Option String × Nat)) (k : Option String) :
    alookup (bumpNC t k).1 k = some ((alookup t k).getD 0 + 1) := by
  unfold bumpNC
  cases h : alookup t k with
  | none => simp [alookup_aset_self]
  | some n => simp [alookup_aset_self]

theorem bumpNC_lookup_ne (t : List (Option String × Nat))
    (k k' : Option String) (h : k' ≠ k) :
    alookup (bumpNC t k).1 k' = alookup t k' := by
  unfold bumpNC
  cases alookup t k <;> simp [alookup_aset_ne _ _ _ _ h]

/-- The world after a qop-bearing `gethttpdigestauth` call: the nonce-count
table is bumped at the challenge's nonce and the mutated challenge is
written back to the cache, whatever the digest computation then does. -/
theorem gethttpdigestauth_step (si : SInfo) (r : Req) (w : World)
    (d : Details) (w1 : World) (b : Bool)
    (hres : resolveDetails si r w (effUser r si) = (some d, w1, b))
    (hq : truthy d.qop = true) :
    (gethttpdigestauth si r w).2.ncTable = (bumpNC w.ncTable d.nonce).1 ∧
    (gethttpdigestauth si r w).2.cache =
      aset w1.cache (effUser r si)
        {d with ncStr := some (fmt08 ((alookup w.ncTable d.nonce).getD 0 + 1)),
                cnonce :=
                  some (d.cnonce.getD "D4AAE4FF-ADA1-4149-BFE2-B506F9264318")} := by
  have hnc1 : w1.ncTable = w.ncTable := by
    have h := resolveDetails_ncTable si r w (effUser r si)
    rw [hres] at h
    exact h
  have hcnt : (bumpNC w1.ncTable d.nonce).2 =
      (alookup w.ncTable d.nonce).getD 0 + 1 := by
    rw [hnc1]
    unfold bumpNC
    cases alookup w.ncTable d.nonce <;> simp
  unfold gethttpdigestauth
  dsimp only
  rw [hres]
  dsimp only
  rw [if_pos hq]
  obtain ⟨uc, huc⟩ := digestTail_world si r (effUser r si) (effPswd r si)
    (d.algorithm.getD "md5") _ _
  rw [huc]
  dsimp only
  rw [hcnt, hnc1]
  exact ⟨rfl, rfl⟩

/-- Evaluation of `calcHA1` for the (defaulted) `md5` algorithm. -/
theorem calcHA1_md5 (u rm p n c : String) :
    calcHA1 "md5" (some u) (some rm) (some p) (some n) (some c) none =
      .ok (hexEncodeBytes (md5Bytes (strBytes u ++ strBytes ":" ++
        strBytes rm ++ strBytes ":" ++ strBytes p))) := by
  simp [calcHA1, algorithms, truthy]

/-- `calcResponse` with algorithm `md5`, a present nonce, no entity body and
qop not `auth-int` always succeeds. -/
theorem calcResponse_md5_ok (HA1 n m uri : String) (ncv cnv qv : Option String)
    (hqi : qv ≠ some "auth-int") :
    ∃ out, calcResponse HA1 "md5" (some n) ncv cnv qv m uri none =
      .ok out := by
  unfold calcResponse
  rw [show algorithms "md5" = some md5Bytes from rfl]
  dsimp only
  rw [if_neg hqi]
  exact ⟨_, rfl⟩

/-- With realm/nonce/nc/cnonce/qop all present, qop truthy and not
`auth-int`, and algorithm `md5`, the digest tail succeeds and the built
header carries `, nc=` followed by the formatted nonce count. -/
theorem digestTail_header (si : SInfo) (r : Req) (u p : String)
    (d1 : Details) (w2 : World) (rv nv ncs cns qv : String)
    (hrv : d1.realm = some rv) (hnv : d1.nonce = some nv)
    (hncs : d1.ncStr = some ncs) (hcns : d1.cnonce = some cns)
    (hqv : d1.qop = some qv) (hq : truthy d1.qop = true)
    (hqi : d1.qop ≠ some "auth-int") :
    ∃ hdr, (digestTail si r u p "md5" d1 w2).1 = .ok hdr ∧
      containsStr hdr (", nc=" ++ ostr d1.ncStr) = true := by
  rw [hqv] at hq hqi
  unfold digestTail
  rw [hrv, hnv, hncs, hcns, hqv, calcHA1_md5]
  dsimp only
  obtain ⟨out, hout⟩ := calcResponse_md5_ok
    (hexEncodeBytes (md5Bytes (strBytes u ++ strBytes ":" ++ strBytes rv ++
      strBytes ":" ++ strBytes p)))
    nv r.method (getURI si r.ruri r.count w2.uuidCount).1
    (some ncs) (some cns) (some qv) hqi
  rw [hout]
  dsimp only [ostr]
  rw [if_pos hq]
  refine ⟨_, rfl, ?_⟩
  rw [String.append_assoc]
  exact containsStr_append_right _ _

/-- C2: whenever `gethttpdigestauth` proceeds with a challenge whose qop is
set, the class-level nonce-count table keyed by the nonce value is bumped —
first use yields 1, a reuse increments — regardless of which user or
request triggered it; the formatted `nc` written into the challenge (and
carried in the header) is the eight-character `%08x` rendering; for a fixed
nonce two successive qop-bearing calls produce strictly increasing counts. -/
theorem C2_nonce_count (si : SInfo) (r : Req) (w : World) (d : Details)
    (w1 : World) (b : Bool)
    (hres : resolveDetails si r w (effUser r si) = (some d, w1, b))
    (hq : truthy d.qop = true) :
    alookup (gethttpdigestauth si r w).2.ncTable d.nonce =
      some ((alookup w.ncTable d.nonce).getD 0 + 1) ∧
    (alookup w.ncTable d.nonce = none →
      alookup (gethttpdigestauth si r w).2.ncTable d.nonce = some 1) ∧
    (∀ k, k ≠ d.nonce →
      alookup (gethttpdigestauth si r w).2.ncTable k = alookup w.ncTable k) ∧
    alookup (gethttpdigestauth si r w).2.cache (effUser r si) =
      some {d with
        ncStr := some (fmt08 ((alookup w.ncTable d.nonce).getD 0 + 1)),
        cnonce :=
          some (d.cnonce.getD "D4AAE4FF-ADA1-4149-BFE2-B506F9264318")} ∧
    ((alookup w.ncTable d.nonce).getD 0 + 1 < 4294967296 →
      (fmt08 ((alookup w.ncTable d.nonce).getD 0 + 1)).length = 8) ∧
    (∀ (si2 : SInfo) (r2 : Req) (d2 : Details) (w2 : World) (b2 : Bool),
      resolveDetails si2 r2 (gethttpdigestauth si r w).2 (effUser r2 si2) =
        (some d2, w2, b2) →
      truthy d2.qop = true → d2.nonce = d.nonce →
      alookup (gethttpdigestauth si2 r2 (gethttpdigestauth si r w).2).2.ncTable
          d.nonce =
        some ((alookup w.ncTable d.nonce).getD 0 + 2) ∧
      (alookup w.ncTable d.nonce).getD 0 + 1 <
        (alookup w.ncTable d.nonce).getD 0 + 2) ∧
    (∀ rv nv, d.realm = some rv → d.nonce = some nv → d.algorithm = none →
      d.qop ≠ some "auth-int" →
      ∃ hdr, (gethttpdigestauth si r w).1 = .ok hdr ∧
        containsStr hdr
          (", nc=" ++ fmt08 ((alookup w.ncTable d.nonce).getD 0 + 1)) =
          true) := by
  obtain ⟨htab, hcache⟩ := gethttpdigestauth_step si r w d w1 b hres hq
  have hnc1 : w1.ncTable = w.ncTable := by
    have h := resolveDetails_ncTable si r w (effUser r si)
    rw [hres] at h
    exact h
  refine ⟨?_, ?_, ?_, ?_, fun hlt => fmt08_length _ hlt, ?_, ?_⟩
  · rw [htab, bumpNC_lookup]
  · intro h0
    rw [htab, bumpNC_lookup, h0]
    rfl
  · intro k hk
    rw [htab, bumpNC_lookup_ne _ _ _ hk]
  · rw [hcache, alookup_aset_self]
  · intro si2 r2 d2 w2 b2 hres2 hq2 hn2
    obtain ⟨htab2, _⟩ := gethttpdigestauth_step si2 r2 _ d2 w2 b2 hres2 hq2
    constructor
    · rw [htab2, hn2, bumpNC_lookup, htab, bumpNC_lookup]
      rfl
    · omega
  · intro rv nv hrv hnv halg hqi
    obtain ⟨qv, hqv⟩ : ∃ qv, d.qop = some qv := by
      cases hd : d.qop with
      | none => rw [hd] at hq; exact absurd hq (by simp [truthy])
      | some q => exact ⟨q, rfl⟩
    have hb : (bumpNC w1.ncTable d.nonce).2 =
        (alookup w.ncTable d.nonce).getD 0 + 1 := by
      rw [hnc1]
      unfold bumpNC
      cases alookup w.ncTable d.nonce <;> simp
    unfold gethttpdigestauth
    dsimp only
    rw [hres]
    dsimp only
    rw [if_pos hq, hb, halg]
    refine digestTail_header si r (effUser r si) (effPswd r si) _ _
      rv nv _ _ qv ?_ ?_ rfl rfl ?_ ?_ ?_
    · exact hrv
    · exact hnv
    · exact hqv
    · exact hq
    · exact hqi

/-- Witness for C2: with `dSample` (qop `auth`, nonce `nonce1`) cached for
`alice` and an empty nonce-count table, the first authenticated call sets
the count for `nonce1` to 1. -/
theorem C2_nonce_count_witness :
    alookup (gethttpdigestauth siSample rSample wSample).2.ncTable
      (some "nonce1") = some 1 :=
  (C2_nonce_count siSample rSample wSample dSample wSample false rfl rfl).2.1
    rfl

end CalDav

namespace CalDav

/-! ### Helper lemmas for URI placeholder rewriting -/

theorem genUUID_inj (m n : Nat) (h : m ≠ n) : genUUID m ≠ genUUID n := by
  intro he
  apply h
  have h2 := congrArg (fun s : String => s.data.length) he
  simpa [genUUID] using h2

theorem genUUID_no_star (n : Nat) : '*' ∉ (genUUID n).data := by
  simp [genUUID, List.mem_cons, List.mem_replicate]

theorem containsC_append_no_star (a b : List Char) (ha : '*' ∉ a) :
    containsC (a ++ b) ['*', '*'] = containsC b ['*', '*'] := by
  induction a with
  | nil => rfl
  | cons c t ih =>
    have hc : c ≠ '*' := fun hh => ha (hh ▸ List.mem_cons_self c t)
    have ht : '*' ∉ t := fun hh => ha (List.mem_cons_of_mem c hh)
    rw [List.cons_append, containsC_cons]
    have hb : ('*' == c) = false := beq_eq_false_iff_ne.mpr (Ne.symm hc)
    have hpre : (['*', '*'] : List Char).isPrefixOf (c :: (t ++ b)) = false := by
      simp [List.isPrefixOf, hb]
    rw [hpre, ih ht]
    simp

theorem replaceFuel_head (fuel : Nat) (u rep : List Char)
    (h : (replaceFuel fuel u ['*', '*'] rep).head? = some '*') :
    u.head? = some '*' := by
  cases fuel with
  | zero => simpa [replaceFuel] using h
  | succ f =>
    cases u with
    | nil => simp [replaceFuel] at h
    | cons c rest =>
      by_cases hm : (!(['*', '*'] : List Char).isEmpty &&
          (['*', '*'] : List Char).isPrefixOf (c :: rest)) = true
      · have hpre : (['*', '*'] : List Char).isPrefixOf (c :: rest) = true := by
          simpa using hm
        have hc : c = '*' := by
          have h1 := hpre
          simp [List.isPrefixOf] at h1
          exact h1.1.symm
        simp [hc]
      · simp only [replaceFuel] at h
        rw [if_neg hm] at h
        simp only [List.head?_cons, Option.some.injEq] at h
        simp [h]

theorem replaceFuel_no_ds :
    ∀ (fuel : Nat) (u rep : List Char), u.length ≤ fuel → '*' ∉ rep →
      containsC (replaceFuel fuel u ['*', '*'] rep) ['*', '*'] = false := by
  intro fuel
  induction fuel with
  | zero =>
    intro u rep hlen _
    have hu : u = [] := List.eq_nil_of_length_eq_zero (by omega)
    subst hu
    rfl
  | succ f ih =>
    intro u rep hlen hrep
    cases u with
    | nil => rfl
    | cons c rest =>
      by_cases hm : (!(['*', '*'] : List Char).isEmpty &&
          (['*', '*'] : List Char).isPrefixOf (c :: rest)) = true
      · simp only [replaceFuel]
        rw [if_pos hm]
        rw [containsC_append_no_star _ _ hrep]
        apply ih _ rep _ hrep
        simp only [List.length_drop, List.length_cons] at *
        omega
      · simp only [replaceFuel]
        rw [if_neg hm]
        have hR : containsC (replaceFuel f rest ['*', '*'] rep) ['*', '*'] =
            false := by
          apply ih rest rep _ hrep
          simp only [List.length_cons] at hlen
          omega
        rw [containsC_cons, hR]
        simp only [Bool.or_false]
        by_cases hc : c = '*'
        · subst hc
          cases hRl : replaceFuel f rest ['*', '*'] rep with
          | nil => simp [List.isPrefixOf]
          | cons x xs =>
            by_cases hx : x = '*'
            · exfalso
              have hhead : rest.head? = some '*' :=
                replaceFuel_head f rest rep (by rw [hRl]; simp [hx])
              apply hm
              cases rest with
              | nil => simp at hhead
              | cons r0 rs =>
                have hr0 : r0 = '*' := by simpa using hhead
                subst hr0
                simp [List.isPrefixOf]
            · have hxb : ('*' == x) = false := beq_eq_false_iff_ne.mpr (Ne.symm hx)
              simp [List.isPrefixOf, hxb]
        · have hcb : ('*' == c) = false := beq_eq_false_iff_ne.mpr (Ne.symm hc)
          simp [List.isPrefixOf, hcb]

theorem replaceC_no_ds (u rep : List Char) (hrep : '*' ∉ rep) :
    containsC (replaceC u ['*', '*'] rep) ['*', '*'] = false :=
  replaceFuel_no_ds u.length u rep le_rfl hrep

/-- C4: `getURI` first applies extra substitutions; when the result contains
`**` and no `?` occurs before the first `**`, every `**` is replaced by a
freshly generated identifier (consuming the generation counter, so two such
resolutions use distinct identifiers, and no `**` survives); otherwise, when
it contains `##` under the same query-string exception, every `##` becomes
the decimal repetition count; a `?` before the placeholder, or the absence
of both placeholders, leaves the URI untouched; at most one placeholder kind
is rewritten. -/
theorem C4_uri_placeholders (si : SInfo) (ruri : String) (count uc : Nat) :
    (containsC (extrasubs si ruri).data ['*', '*'] = true →
      starOK (extrasubs si ruri).data ['*', '*'] = true →
      getURI si ruri count uc =
        (String.mk (replaceC (extrasubs si ruri).data ['*', '*']
          (genUUID uc).data), uc + 1) ∧
      containsC (getURI si ruri count uc).1.data ['*', '*'] = false) ∧
    (containsC (extrasubs si ruri).data ['*', '*'] = true →
      starOK (extrasubs si ruri).data ['*', '*'] = false →
      getURI si ruri count uc = (extrasubs si ruri, uc)) ∧
    (containsC (extrasubs si ruri).data ['*', '*'] = false →
      containsC (extrasubs si ruri).data ['#', '#'] = true →
      starOK (extrasubs si ruri).data ['#', '#'] = true →
      getURI si ruri count uc =
        (String.mk (replaceC (extrasubs si ruri).data ['#', '#']
          (Nat.repr count).data), uc)) ∧
    (containsC (extrasubs si ruri).data ['*', '*'] = false →
      containsC (extrasubs si ruri).data ['#', '#'] = true →
      starOK (extrasubs si ruri).data ['#', '#'] = false →
      getURI si ruri count uc = (extrasubs si ruri, uc)) ∧
    (containsC (extrasubs si ruri).data ['*', '*'] = false →
      containsC (extrasubs si ruri).data ['#', '#'] = false →
      getURI si ruri count uc = (extrasubs si ruri, uc)) ∧
    (∀ m n : Nat, m ≠ n → genUUID m ≠ genUUID n) ∧
    ((getURI si ruri count uc).2 = uc + 1 →
      genUUID uc ≠ genUUID (getURI si ruri count uc).2) := by
  refine ⟨?_, ?_, ?_, ?_, ?_, genUUID_inj, ?_⟩
  · intro h1 h2
    have heq : getURI si ruri count uc =
        (String.mk (replaceC (extrasubs si ruri).data ['*', '*']
          (genUUID uc).data), uc + 1) := by
      unfold getURI
      dsimp only
      rw [if_pos h1, if_pos h2]
    refine ⟨heq, ?_⟩
    rw [heq]
    exact replaceC_no_ds _ _ (genUUID_no_star uc)
  · intro h1 h2
    unfold getURI
    dsimp only
    rw [if_pos h1, if_neg (by rw [h2]; exact Bool.false_ne_true)]
  · intro h1 h2 h3
    unfold getURI
    dsimp only
    rw [if_neg (by rw [h1]; exact Bool.false_ne_true), if_pos h2, if_pos h3]
  · intro h1 h2 h3
    unfold getURI
    dsimp only
    rw [if_neg (by rw [h1]; exact Bool.false_ne_true), if_pos h2,
      if_neg (by rw [h3]; exact Bool.false_ne_true)]
  · intro h1 h2
    unfold getURI
    dsimp only
    rw [if_neg (by rw [h1]; exact Bool.false_ne_true),
      if_neg (by rw [h2]; exact Bool.false_ne_true)]
  · intro h2
    rw [h2]
    exact genUUID_inj uc (uc + 1) (by omega)

/-- Witness for C4: a URI template containing `**` and no `?` is rewritten
with the generated identifier and the counter advances. -/
theorem C4_uri_placeholders_witness :
    getURI ⟨"alice", "pw", "digest", "", ∅, [], []⟩ "/cal/**" 1 0 =
      (String.mk (replaceC
        (extrasubs ⟨"alice", "pw", "digest", "", ∅, [], []⟩ "/cal/**").data
        ['*', '*'] (genUUID 0).data), 1) :=
  ((C4_uri_placeholders ⟨"alice", "pw", "digest", "", ∅, [], []⟩ "/cal/**" 1
    0).1 (by decide) (by decide)).1

end CalDav

namespace CalDav

/-! ### Directory iteration (C6) -/

theorem runNextData_some (entries : List String) (fp : String) :
    ∀ (l : List String) (d : DataSpec),
      runNextData entries fp (l.length + 1) (some l, d) =
        (l.map (fun e => (true, some (pjoin fp e))) ++ [(false, none)],
         (none, {d with nextpath := none})) := by
  intro l
  induction l with
  | nil => intro d; rfl
  | cons e rest ih =>
    intro d
    have hone : runNextData entries fp (rest.length + 1 + 1) (some (e :: rest), d) =
        (((true : Bool), some (pjoin fp e)) ::
          (runNextData entries fp (rest.length + 1)
            (some rest, {d with nextpath := some (pjoin fp e)})).1,
         (runNextData entries fp (rest.length + 1)
            (some rest, {d with nextpath := some (pjoin fp e)})).2) := rfl
    show runNextData entries fp (rest.length + 1 + 1) (some (e :: rest), d) = _
    rw [hone, ih {d with nextpath := some (pjoin fp e)}]
    simp

theorem runNextData_start (entries : List String) (fp : String) (d : DataSpec) :
    runNextData entries fp ((sortedEntries entries).length + 1) (none, d) =
      ((sortedEntries entries).map (fun e => (true, some (pjoin fp e))) ++
         [(false, none)],
       (none, {d with nextpath := none})) := by
  cases hl : sortedEntries entries with
  | nil =>
    have hstep : getNextData entries fp none d =
        (false, none, {d with nextpath := none}) := by
      unfold getNextData
      rw [show (none : Option (List String)).getD (sortedEntries entries) =
        sortedEntries entries from rfl, hl]
    show runNextData entries fp (0 + 1) (none, d) = _
    have hone : runNextData entries fp (0 + 1) (none, d) =
        (((getNextData entries fp none d).1,
          (getNextData entries fp none d).2.2.nextpath) :: [],
         ((getNextData entries fp none d).2.1,
          (getNextData entries fp none d).2.2)) := rfl
    rw [hone, hstep]
    simp
  | cons e rest =>
    have hstep : getNextData entries fp none d =
        (true, some rest, {d with nextpath := some (pjoin fp e)}) := by
      unfold getNextData
      rw [show (none : Option (List String)).getD (sortedEntries entries) =
        sortedEntries entries from rfl, hl]
    have hone : runNextData entries fp (rest.length + 1 + 1) (none, d) =
        (((getNextData entries fp none d).1,
          (getNextData entries fp none d).2.2.nextpath) ::
          (runNextData entries fp (rest.length + 1)
            ((getNextData entries fp none d).2.1,
             (getNextData entries fp none d).2.2)).1,
         (runNextData entries fp (rest.length + 1)
            ((getNextData entries fp none d).2.1,
             (getNextData entries fp none d).2.2)).2) := rfl
    show runNextData entries fp (rest.length + 1 + 1) (none, d) = _
    rw [hone, hstep]
    dsimp only
    rw [runNextData_some entries fp rest {d with nextpath := some (pjoin fp e)}]
    simp

/-- C6: starting with no cursor, successive `getNextData` calls return
`true` and pin `nextpath` to each non-hidden entry in lexically sorted order
(one consumption per entry), then return `false` and clear both the pin and
the cursor; hidden entries are never yielded; `hasNextData` is a
non-consuming peek at the directory; the directory `a.ics`, `b.ics`,
`.hidden` yields exactly two files in lexical order and then exhaustion. -/
theorem C6_directory_iteration (entries : List String) (fp : String)
    (d : DataSpec) :
    (runNextData entries fp ((sortedEntries entries).length + 1) (none, d)).1 =
      (sortedEntries entries).map (fun e => (true, some (pjoin fp e))) ++
        [(false, none)] ∧
    (runNextData entries fp ((sortedEntries entries).length + 1) (none, d)).2 =
      (none, {d with nextpath := none}) ∧
    List.Sorted StrLE (sortedEntries entries) ∧
    (sortedEntries entries).Perm (entries.filter nonHidden) ∧
    (∀ e ∈ sortedEntries entries, nonHidden e = true) ∧
    hasNextData entries = !(sortedEntries entries).isEmpty ∧
    runNextData ["b.ics", ".hidden", "a.ics"] "dir" 3
        (none, ⟨"text/calendar", "coll", "", [], true, false, none, none⟩) =
      ([(true, some "dir/a.ics"), (true, some "dir/b.ics"), (false, none)],
       (none, ⟨"text/calendar", "coll", "", [], true, false, none, none⟩)) := by
  refine ⟨?_, ?_, ?_, ?_, ?_, rfl, ?_⟩
  · rw [runNextData_start]
  · rw [runNextData_start]
  · exact List.sorted_insertionSort StrLE _
  · exact List.perm_insertionSort StrLE _
  · intro e he
    have hmem : e ∈ entries.filter nonHidden :=
      (List.perm_insertionSort StrLE _).mem_iff.mp he
    exact (List.mem_filter.mp hmem).2
  · rfl

end CalDav

namespace CalDav

/-- Witness for C6: a sorted non-hidden entry is indeed non-hidden. -/
theorem C6_directory_iteration_witness : nonHidden "a.ics" = true :=
  (C6_directory_iteration ["b.ics", ".hidden", "a.ics"] "dir"
    ⟨"text/calendar", "coll", "", [], true, false, none, none⟩).2.2.2.2.1
    "a.ics" (by decide)

/-! ### Body resolution (C5) -/

/-- C5 counterexample: for a declared body with empty literal value and
empty file path, `getData` never reads a file (the file branch is guarded
by a non-empty `filepath`), while the claim's reading order says the spec's
own file path is read; with a file system returning `"X"` the two differ. -/
theorem C5_counterexample :
    getData ⟨"", "", "", "", ∅, [], []⟩ (fun _ => "X") id id
        ⟨"", "", "PUT", "/u", true, 1, [],
         some ⟨"text/plain", "", "", [], true, false, none, none⟩,
         ∅, ∅, none⟩ ≠
      getDataClaimed ⟨"", "", "", "", ∅, [], []⟩ (fun _ => "X") id id
        ⟨"", "", "PUT", "/u", true, 1, [],
         some ⟨"text/plain", "", "", [], true, false, none, none⟩,
         ∅, ∅, none⟩ :=
  fun h => absurd (congrArg Prod.fst h) (by decide)

/-- C5 (amended): with no declared body, `getData` returns `""` and leaves
the substitution store untouched; with a declared body the
`$request_count:` entry is always inserted/overwritten with the repetition
count; and for a plain body (no generate flag, no generator) the result is
the literal value when non-empty — otherwise, **provided the spec's file
path is non-empty**, the content of the pinned next path (or of the spec's
own path when no pin is set), and the empty string when both value and file
path are empty — passed through static substitutions, then extra
substitutions (after the `$request_count:` capture), then the body's
private substitution table. -/
theorem C5_body_resolution (si : SInfo) (fs : String → String)
    (genCal genOut : String → String) (r : Req) :
    (r.data = none → getData si fs genCal genOut r = ("", si)) ∧
    (∀ d, r.data = some d →
      (getData si fs genCal genOut r).2 =
        addextrasubs si [("$request_count:", Nat.repr r.count)] ∧
      (getData si fs genCal genOut r).2.extras =
        aset si.extras "$request_count:" (Nat.repr r.count)) ∧
    (∀ d, r.data = some d → d.generate = false → d.generator = none →
      getData si fs genCal genOut r =
        (let raw :=
          if d.value ≠ "" then d.value
          else if d.filepath ≠ "" then fs (d.nextpath.getD (getFilePath si r))
          else ""
         let si1 := addextrasubs si [("$request_count:", Nat.repr r.count)]
         (if !d.substitutions.isEmpty then
            subsWith d.substitutions (extrasubs si1 (subs si raw))
          else extrasubs si1 (subs si raw), si1))) := by
  refine ⟨?_, ?_, ?_⟩
  · intro h
    unfold getData
    rw [h]
  · intro d hd
    constructor
    · unfold getData
      rw [hd]
    · unfold getData
      rw [hd]
      rfl
  · intro d hd hgen hgtor
    unfold getData
    rw [hd]
    dsimp only
    rw [hgen, hgtor]
    rfl

end CalDav

namespace CalDav

/-- Witness for C5: a plain file-backed body resolves to the file content
with the `$request_count:` capture recorded. -/
theorem C5_body_resolution_witness :
    getData ⟨"", "", "", "", ∅, [], []⟩ (fun _ => "DATA") id id
        ⟨"", "", "PUT", "/u", true, 1, [],
         some ⟨"text/plain", "f.txt", "", [], true, false, none, none⟩,
         ∅, ∅, none⟩ =
      ("DATA", ⟨"", "", "", "", ∅, [], [("$request_count:", "1")]⟩) :=
  (C5_body_resolution ⟨"", "", "", "", ∅, [], []⟩ (fun _ => "DATA") id id
    ⟨"", "", "PUT", "/u", true, 1, [],
     some ⟨"text/plain", "f.txt", "", [], true, false, none, none⟩,
     ∅, ∅, none⟩).2.2
    ⟨"text/plain", "f.txt", "", [], true, false, none, none⟩ rfl rfl rfl

end CalDav

namespace CalDav

/-! ### Header assembly (C9) -/

/-- Lookup in the header map after substitution and `Content-Type`
injection, at a key other than `Content-Type`. -/
theorem lookup_base (si : SInfo) (r : Req) (k : String)
    (hk1 : k ≠ "Content-Type") :
    alookup (match r.data with
      | some d => aset (r.headers.map (fun kv => (kv.1, extrasubs si kv.2)))
          "Content-Type" d.content_type
      | none => r.headers.map (fun kv => (kv.1, extrasubs si kv.2))) k =
      (alookup r.headers k).map (extrasubs si) := by
  cases r.data with
  | none => exact alookup_map_val _ _ _
  | some d =>
    dsimp only
    rw [alookup_aset_ne _ _ _ _ hk1]
    exact alookup_map_val _ _ _

/-- Any successful `getHeaders` call stores the returned map and leaves
ordinary keys (neither `Content-Type` nor `Authorization`) with their
extra-substituted values. -/
theorem getHeaders_ok (si : SInfo) (r : Req) (w : World)
    (hs : List (String × String)) (r' : Req) (w' : World)
    (h : getHeaders si r w = .ok (hs, r', w')) :
    r' = {r with headers := hs} ∧
    (∀ k, k ≠ "Content-Type" → k ≠ "Authorization" →
      alookup hs k = (alookup r.headers k).map (extrasubs si)) := by
  unfold getHeaders at h
  dsimp only at h
  by_cases ha : r.auth = true
  · rw [if_pos ha] at h
    by_cases hb : strLower si.authtype = "basic"
    · rw [if_pos hb] at h
      simp only [Except.ok.injEq, Prod.mk.injEq] at h
      obtain ⟨h1, h2, h3⟩ := h
      subst h1
      refine ⟨h2.symm, ?_⟩
      intro k hk1 hk2
      rw [alookup_aset_ne _ _ _ _ hk2]
      exact lookup_base si r k hk1
    · rw [if_neg hb] at h
      by_cases hd : strLower si.authtype = "digest"
      · rw [if_pos hd] at h
        cases hdig : gethttpdigestauth si r w with
        | mk res w1 =>
          rw [hdig] at h
          cases res with
          | error e => simp at h
          | ok s =>
            simp only [Except.ok.injEq, Prod.mk.injEq] at h
            obtain ⟨h1, h2, h3⟩ := h
            subst h1
            refine ⟨h2.symm, ?_⟩
            intro k hk1 hk2
            rw [alookup_aset_ne _ _ _ _ hk2]
            exact lookup_base si r k hk1
      · rw [if_neg hd] at h
        simp only [Except.ok.injEq, Prod.mk.injEq] at h
        obtain ⟨h1, h2, h3⟩ := h
        subst h1
        exact ⟨h2.symm, fun k hk1 _ => lookup_base si r k hk1⟩
  · rw [if_neg ha] at h
    simp only [Except.ok.injEq, Prod.mk.injEq] at h
    obtain ⟨h1, h2, h3⟩ := h
    subst h1
    exact ⟨h2.symm, fun k hk1 _ => lookup_base si r k hk1⟩

/-- C9: a successful `getHeaders` returns the very header map it stores
back into the request (`r'.headers` is the returned map); the
`Content-Type` entry injected from the body spec and the `Authorization`
entry injected for basic or digest auth persist in that stored map; and
because the substituted values are written back, a second call applies the
extra substitutions again — an ordinary stored header value `v` reads back
as `extrasubs (extrasubs v)` after two calls. -/
theorem C9_headers_write_back (si : SInfo) (r : Req) (w : World) :
    (∀ hs r' w', getHeaders si r w = .ok (hs, r', w') →
      r'.headers = hs) ∧
    (∀ hs r' w' d, getHeaders si r w = .ok (hs, r', w') → r.data = some d →
      alookup hs "Content-Type" = some d.content_type) ∧
    (∀ hs r' w', r.auth = true → strLower si.authtype = "basic" →
      getHeaders si r w = .ok (hs, r', w') →
      alookup hs "Authorization" = some (gethttpbasicauth si r)) ∧
    (∀ hs r' w', r.auth = true → strLower si.authtype = "digest" →
      getHeaders si r w = .ok (hs, r', w') →
      (alookup hs "Authorization").isSome = true) ∧
    (∀ k v hs r' w' hs2 r'' w'',
      getHeaders si r w = .ok (hs, r', w') →
      getHeaders si r' w' = .ok (hs2, r'', w'') →
      alookup r.headers k = some v →
      k ≠ "Content-Type" → k ≠ "Authorization" →
      alookup hs2 k = some (extrasubs si (extrasubs si v))) := by
  have hContent : ∀ (d : DataSpec), r.data = some d →
      alookup (match r.data with
        | some d => aset (r.headers.map (fun kv => (kv.1, extrasubs si kv.2)))
            "Content-Type" d.content_type
        | none => r.headers.map (fun kv => (kv.1, extrasubs si kv.2)))
        "Content-Type" = some d.content_type := by
    intro d hd
    rw [hd]
    exact alookup_aset_self _ _ _
  refine ⟨?_, ?_, ?_, ?_, ?_⟩
  · intro hs r' w' h
    rw [(getHeaders_ok si r w hs r' w' h).1]
  · intro hs r' w' d h hd
    unfold getHeaders at h
    dsimp only at h
    by_cases ha : r.auth = true
    · rw [if_pos ha] at h
      by_cases hb : strLower si.authtype = "basic"
      · rw [if_pos hb] at h
        simp only [Except.ok.injEq, Prod.mk.injEq] at h
        obtain ⟨h1, h2, h3⟩ := h
        subst h1
        rw [alookup_aset_ne _ _ _ _ (by decide)]
        exact hContent d hd
      · rw [if_neg hb] at h
        by_cases hdg : strLower si.authtype = "digest"
        · rw [if_pos hdg] at h
          cases hdig : gethttpdigestauth si r w with
          | mk res w1 =>
            rw [hdig] at h
            cases res with
            | error e => simp at h
            | ok s =>
              simp only [Except.ok.injEq, Prod.mk.injEq] at h
              obtain ⟨h1, h2, h3⟩ := h
              subst h1
              rw [alookup_aset_ne _ _ _ _ (by decide)]
              exact hContent d hd
        · rw [if_neg hdg] at h
          simp only [Except.ok.injEq, Prod.mk.injEq] at h
          obtain ⟨h1, h2, h3⟩ := h
          subst h1
          exact hContent d hd
    · rw [if_neg ha] at h
      simp only [Except.ok.injEq, Prod.mk.injEq] at h
      obtain ⟨h1, h2, h3⟩ := h
      subst h1
      exact hContent d hd
  · intro hs r' w' ha hb h
    unfold getHeaders at h
    dsimp only at h
    rw [if_pos ha, if_pos hb] at h
    simp only [Except.ok.injEq, Prod.mk.injEq] at h
    obtain ⟨h1, h2, h3⟩ := h
    subst h1
    exact alookup_aset_self _ _ _
  · intro hs r' w' ha hd h
    unfold getHeaders at h
    dsimp only at h
    rw [if_pos ha] at h
    by_cases hb : strLower si.authtype = "basic"
    · rw [if_pos hb] at h
      simp only [Except.ok.injEq, Prod.mk.injEq] at h
      obtain ⟨h1, h2, h3⟩ := h
      subst h1
      rw [alookup_aset_self]
      rfl
    · rw [if_neg hb, if_pos hd] at h
      cases hdig : gethttpdigestauth si r w with
      | mk res w1 =>
        rw [hdig] at h
        cases res with
        | error e => simp at h
        | ok s =>
          simp only [Except.ok.injEq, Prod.mk.injEq] at h
          obtain ⟨h1, h2, h3⟩ := h
          subst h1
          rw [alookup_aset_self]
          rfl
  · intro k v hs r' w' hs2 r'' w'' h1 h2 hv hk1 hk2
    obtain ⟨hr1, hl1⟩ := getHeaders_ok si r w hs r' w' h1
    obtain ⟨hr2, hl2⟩ := getHeaders_ok si r' w' hs2 r'' w'' h2
    have e1 : alookup hs k = some (extrasubs si v) := by
      rw [hl1 k hk1 hk2, hv]
      rfl
    have e2 : alookup r'.headers k = some (extrasubs si v) := by
      rw [hr1]
      exact e1
    rw [hl2 k hk1 hk2, e2]
    rfl

/-- Witness for C9: with basic auth configured and no stored headers, the
`Authorization` entry is present in the returned (and stored) map. -/
theorem C9_headers_write_back_witness :
    alookup [("Authorization",
        gethttpbasicauth ⟨"alice", "pass", "basic", "", ∅, [], []⟩
          ⟨"", "", "GET", "/", true, 1, [], none, ∅, ∅, none⟩)]
      "Authorization" =
      some (gethttpbasicauth ⟨"alice", "pass", "basic", "", ∅, [], []⟩
        ⟨"", "", "GET", "/", true, 1, [], none, ∅, ∅, none⟩) :=
  (C9_headers_write_back ⟨"alice", "pass", "basic", "", ∅, [], []⟩
    ⟨"", "", "GET", "/", true, 1, [], none, ∅, ∅, none⟩
    ⟨[], [], 0, none, 0⟩).2.2.1
    [("Authorization",
      gethttpbasicauth ⟨"alice", "pass", "basic", "", ∅, [], []⟩
        ⟨"", "", "GET", "/", true, 1, [], none, ∅, ∅, none⟩)]
    ⟨"", "", "GET", "/", true, 1,
      [("Authorization",
        gethttpbasicauth ⟨"alice", "pass", "basic", "", ∅, [], []⟩
          ⟨"", "", "GET", "/", true, 1, [], none, ∅, ∅, none⟩)],
      none, ∅, ∅, none⟩
    ⟨[], [], 0, none, 0⟩ rfl rfl rfl

end CalDav

namespace CalDav

/-! ### The free-busy verifier (C10) -/

/-- With no expected attendees, the calendar-data loop skips every entry
that parses as a calendar with exactly one `VFREEBUSY` component. -/
theorem fbLoop_empty_users (parseCal : String → Option Cal)
    (b t u : List String) (ev : Option Nat) :
    ∀ texts : List String,
      (∀ txt ∈ texts, ∃ cal, parseCal txt = some cal ∧
        cal.vfreebusy.length = 1) →
      fbLoop parseCal b t u ev [] texts = .ok [] := by
  intro texts
  induction texts with
  | nil => intro _; rfl
  | cons txt rest ih =>
    intro h
    obtain ⟨cal, hc, h1⟩ := h txt (List.mem_cons_self _ _)
    show fbLoop parseCal b t u ev [] (txt :: rest) = .ok []
    unfold fbLoop
    rw [hc]
    dsimp only
    rw [if_neg (by simp [h1])]
    rw [List.find?_eq_none.mpr (fun x _ => by simp)]
    exact ih (fun txt2 hm => h txt2 (List.mem_cons_of_mem _ hm))

/-- C10 counterexample: with status 200, well-formed XML and an empty
`attendee` list, a `calendar-data` entry that pycalendar rejects still
makes the verifier return `False` — calendar data IS examined. -/
theorem C10_counterexample :
    fbVerify (fun _ => none) 200 (some ["junk"]) [] [] [] [] [] =
      (false, "        HTTP response data is not a calendar") ∧
    fbVerify (fun _ => none) 200 (some ["junk"]) [] [] [] [] [] ≠
      (true, "") := by
  constructor
  · rfl
  · decide

/-- C10 (amended): the free-busy verifier returns `False` with a diagnostic
whenever the response status is not 200, and `False` when the body is not
well-formed XML; given status 200, well-formed XML and an empty `attendee`
argument list it returns `(True, "")` **provided** every `calendar-data`
text parses as a calendar with exactly one `VFREEBUSY` component (a parse
or component-count failure still returns `False`, so calendar data is
examined even with no expected attendees). -/
theorem C10_freebusy_verifier (parseCal : String → Option Cal) :
    (∀ (status : Nat) (xml : Option (List String))
        (a b t u : List String) (ev : List Nat), status ≠ 200 →
      fbVerify parseCal status xml a b t u ev =
        (false, "        HTTP Status Code Wrong: " ++ Nat.repr status)) ∧
    (∀ (a b t u : List String) (ev : List Nat),
      fbVerify parseCal 200 none a b t u ev =
        (false, "           Could not parse proper XML response\n")) ∧
    (∀ (texts b t u : List String) (ev : List Nat),
      (∀ txt ∈ texts, ∃ cal, parseCal txt = some cal ∧
        cal.vfreebusy.length = 1) →
      fbVerify parseCal 200 (some texts) [] b t u ev = (true, "")) := by
  refine ⟨?_, ?_, ?_⟩
  · intro status xml a b t u ev h
    unfold fbVerify
    rw [if_pos h]
  · intro a b t u ev
    rfl
  · intro texts b t u ev h
    unfold fbVerify
    rw [if_neg (by omega)]
    dsimp only
    rw [fbLoop_empty_users parseCal b t u _ texts h]
    rfl

/-- Witness for C10: a response whose single calendar-data entry parses to
one `VFREEBUSY` passes with an empty attendee list. -/
theorem C10_freebusy_verifier_witness :
    fbVerify (fun _ => some ⟨[⟨[], []⟩], 0⟩) 200 (some ["cal1"])
      [] [] [] [] [] = (true, "") :=
  (C10_freebusy_verifier (fun _ => some ⟨[⟨[], []⟩], 0⟩)).2.2
    ["cal1"] [] [] [] [] (fun _ _ => ⟨⟨[⟨[], []⟩], 0⟩, rfl, rfl⟩)

end CalDav

namespace CalDav

/-! ### Plugin argument deep copy (C7) -/

theorem hread_append_lt (h : Heap) (v : List String) (i : Nat)
    (hi : i < h.length) : hread (h ++ [v]) i = hread h i := by
  unfold hread
  induction h generalizing i with
  | nil => simp at hi
  | cons x t ih =>
    cases i with
    | zero => rfl
    | succ j =>
      simp only [List.cons_append, List.getD_cons_succ]
      exact ih j (by simpa using hi)

theorem hread_append_eq (h : Heap) (v : List String) :
    hread (h ++ [v]) h.length = v := by
  unfold hread
  induction h with
  | nil => rfl
  | cons x t ih => simp only [List.cons_append]; exact ih

theorem hread_set_ne (h : Heap) (i j : Nat) (v : List String) (hij : i ≠ j) :
    hread (hwrite h j v) i = hread h i := by
  unfold hread hwrite
  induction h generalizing i j with
  | nil => rfl
  | cons x t ih =>
    cases j with
    | zero =>
      cases i with
      | zero => exact absurd rfl hij
      | succ i2 => rfl
    | succ j2 =>
      cases i with
      | zero => rfl
      | succ i2 =>
        simp only [List.set_cons_succ, List.getD_cons_succ]
        exact ih i2 j2 (fun he => hij (by rw [he]))

theorem applyWrites_preserve :
    ∀ (writes : List (Nat × List String)) (h : Heap) (i : Nat),
      (∀ iv ∈ writes, iv.1 ≠ i) →
      hread (applyWrites h writes) i = hread h i := by
  intro writes
  induction writes with
  | nil => intro h i _; rfl
  | cons p rest ih =>
    intro h i hni
    obtain ⟨j, v⟩ := p
    show hread (applyWrites (hwrite h j v) rest) i = hread h i
    rw [ih _ i (fun iv hm => hni iv (List.mem_cons_of_mem _ hm))]
    exact hread_set_ne h i j v
      (fun he => hni (j, v) (List.mem_cons_self _ _) he.symm)

theorem cloneArgs_len2 : ∀ (args : List (String × Nat)) (h : Heap),
    (cloneArgs h args).2.length = args.length := by
  intro args
  induction args with
  | nil => intro h; rfl
  | cons p rest ih =>
    intro h
    obtain ⟨k, r⟩ := p
    show ((k, h.length) :: (cloneArgs (h ++ [hread h r]) rest).2).length = _
    simp [ih]

theorem cloneArgs_extends : ∀ (args : List (String × Nat)) (h : Heap) (i : Nat),
    i < h.length → hread (cloneArgs h args).1 i = hread h i := by
  intro args
  induction args with
  | nil => intro h i _; rfl
  | cons p rest ih =>
    intro h i hi
    obtain ⟨k, r⟩ := p
    show hread (cloneArgs (h ++ [hread h r]) rest).1 i = hread h i
    rw [ih (h ++ [hread h r]) i (by simp; omega), hread_append_lt h _ i hi]

theorem cloneArgs_refs_ge : ∀ (args : List (String × Nat)) (h : Heap),
    ∀ kp ∈ (cloneArgs h args).2, h.length ≤ kp.2 := by
  intro args
  induction args with
  | nil => intro h kp hm; simp [cloneArgs] at hm
  | cons p rest ih =>
    intro h kp hm
    obtain ⟨k, r⟩ := p
    have hm2 : kp ∈ (k, h.length) :: (cloneArgs (h ++ [hread h r]) rest).2 := hm
    rcases List.mem_cons.mp hm2 with he | ht
    · rw [he]
    · have := ih (h ++ [hread h r]) kp ht
      simp at this
      omega

theorem cloneArgs_spec : ∀ (args : List (String × Nat)) (h : Heap) (j : Nat)
    (k : String) (r : Nat), (∀ kr ∈ args, kr.2 < h.length) →
    args[j]? = some (k, r) →
    (cloneArgs h args).2[j]? = some (k, h.length + j) ∧
    hread (cloneArgs h args).1 (h.length + j) = hread h r := by
  intro args
  induction args with
  | nil => intro h j k r _ hj; simp at hj
  | cons p rest ih =>
    intro h j k r hv hj
    obtain ⟨k0, r0⟩ := p
    have hr0 : r0 < h.length := hv (k0, r0) (List.mem_cons_self _ _)
    cases j with
    | zero =>
      simp only [List.getElem?_cons_zero, Option.some.injEq] at hj
      obtain ⟨hk, hr⟩ : k0 = k ∧ r0 = r := by
        constructor <;> [exact congrArg Prod.fst hj; exact congrArg Prod.snd hj]
      subst hk
      subst hr
      constructor
      · show ((k0, h.length) :: (cloneArgs (h ++ [hread h r0]) rest).2)[0]? =
          some (k0, h.length + 0)
        simp
      · show hread (cloneArgs (h ++ [hread h r0]) rest).1 (h.length + 0) =
          hread h r0
        rw [Nat.add_zero,
          cloneArgs_extends rest (h ++ [hread h r0]) h.length (by simp),
          hread_append_eq]
    | succ j2 =>
      simp only [List.getElem?_cons_succ] at hj
      have hv2 : ∀ kr ∈ rest, kr.2 < (h ++ [hread h r0]).length := by
        intro kr hm
        have := hv kr (List.mem_cons_of_mem _ hm)
        simp
        omega
      obtain ⟨h1, h2⟩ := ih (h ++ [hread h r0]) j2 k r hv2 hj
      have hlen : (h ++ [hread h r0]).length + j2 = h.length + (j2 + 1) := by
        simp
        omega
      constructor
      · show ((k0, h.length) :: (cloneArgs (h ++ [hread h r0]) rest).2)[j2 + 1]? =
          some (k, h.length + (j2 + 1))
        rw [List.getElem?_cons_succ, ← hlen]
        exact h1
      · show hread (cloneArgs (h ++ [hread h r0]) rest).1 (h.length + (j2 + 1)) =
          hread h r
        rw [← hlen, h2]
        exact hread_append_lt h _ r (hv (k, r) (List.mem_cons_of_mem _
          (by
            have hj2 : j2 < rest.length := by
              by_contra hc
              rw [List.getElem?_eq_none (by omega)] at hj
              exact Option.noConfusion hj
            exact List.getElem?_mem hj)))

theorem reResolveArgs_len2 (si : SInfo) :
    ∀ (args : List (String × Nat)) (h : Heap),
      (reResolveArgs si h args).2.length = args.length := by
  intro args
  induction args with
  | nil => intro h; rfl
  | cons p rest ih =>
    intro h
    obtain ⟨k, r⟩ := p
    show ((k, h.length) ::
      (reResolveArgs si (h ++ [(hread h r).map (extrasubs si)]) rest).2).length = _
    simp [ih]

theorem reResolveArgs_heap_len (si : SInfo) :
    ∀ (args : List (String × Nat)) (h : Heap),
      (reResolveArgs si h args).1.length = h.length + args.length := by
  intro args
  induction args with
  | nil => intro h; simp [reResolveArgs]
  | cons p rest ih =>
    intro h
    obtain ⟨k, r⟩ := p
    show (reResolveArgs si (h ++ [(hread h r).map (extrasubs si)]) rest).1.length = _
    rw [ih]
    simp
    omega

theorem reResolveArgs_extends (si : SInfo) :
    ∀ (args : List (String × Nat)) (h : Heap) (i : Nat),
      i < h.length → hread (reResolveArgs si h args).1 i = hread h i := by
  intro args
  induction args with
  | nil => intro h i _; rfl
  | cons p rest ih =>
    intro h i hi
    obtain ⟨k, r⟩ := p
    show hread (reResolveArgs si (h ++ [(hread h r).map (extrasubs si)]) rest).1 i =
      hread h i
    rw [ih _ i (by simp; omega), hread_append_lt h _ i hi]

theorem reResolveArgs_spec (si : SInfo) :
    ∀ (args : List (String × Nat)) (h : Heap) (j : Nat) (k : String) (r : Nat),
      (∀ kr ∈ args, kr.2 < h.length) → args[j]? = some (k, r) →
      (reResolveArgs si h args).2[j]? = some (k, h.length + j) ∧
      hread (reResolveArgs si h args).1 (h.length + j) =
        (hread h r).map (extrasubs si) := by
  intro args
  induction args with
  | nil => intro h j k r _ hj; simp at hj
  | cons p rest ih =>
    intro h j k r hv hj
    obtain ⟨k0, r0⟩ := p
    have hr0 : r0 < h.length := hv (k0, r0) (List.mem_cons_self _ _)
    cases j with
    | zero =>
      simp only [List.getElem?_cons_zero, Option.some.injEq] at hj
      obtain ⟨hk, hr⟩ : k0 = k ∧ r0 = r := by
        constructor <;> [exact congrArg Prod.fst hj; exact congrArg Prod.snd hj]
      subst hk
      subst hr
      constructor
      · show ((k0, h.length) ::
          (reResolveArgs si (h ++ [(hread h r0).map (extrasubs si)]) rest).2)[0]? =
          some (k0, h.length + 0)
        simp
      · show hread
          (reResolveArgs si (h ++ [(hread h r0).map (extrasubs si)]) rest).1
          (h.length + 0) = (hread h r0).map (extrasubs si)
        rw [Nat.add_zero,
          reResolveArgs_extends si rest _ h.length (by simp),
          hread_append_eq]
    | succ j2 =>
      simp only [List.getElem?_cons_succ] at hj
      have hv2 : ∀ kr ∈ rest,
          kr.2 < (h ++ [(hread h r0).map (extrasubs si)]).length := by
        intro kr hm
        have := hv kr (List.mem_cons_of_mem _ hm)
        simp
        omega
      obtain ⟨h1, h2⟩ := ih (h ++ [(hread h r0).map (extrasubs si)]) j2 k r hv2 hj
      have hlen : (h ++ [(hread h r0).map (extrasubs si)]).length + j2 =
          h.length + (j2 + 1) := by
        simp
        omega
      constructor
      · show ((k0, h.length) ::
          (reResolveArgs si (h ++ [(hread h r0).map (extrasubs si)]) rest).2)[j2 + 1]? =
          some (k, h.length + (j2 + 1))
        rw [List.getElem?_cons_succ, ← hlen]
        exact h1
      · show hread
          (reResolveArgs si (h ++ [(hread h r0).map (extrasubs si)]) rest).1
          (h.length + (j2 + 1)) = (hread h r).map (extrasubs si)
        rw [← hlen, h2]
        congr 1
        exact hread_append_lt h _ r (hv (k, r) (List.mem_cons_of_mem _
          (by
            have hj2 : j2 < rest.length := by
              by_contra hc
              rw [List.getElem?_eq_none (by omega)] at hj
              exact Option.noConfusion hj
            exact List.getElem?_mem hj)))

end CalDav

namespace CalDav

theorem getElem?_of_mem {α : Type} {l : List α} {a : α} (h : a ∈ l) :
    ∃ i : Nat, l[i]? = some a := by
  obtain ⟨i, hi, he⟩ := List.getElem_of_mem h
  exact ⟨i, by rw [List.getElem?_eq_getElem hi, he]⟩

theorem lt_length_of_getElem? {α : Type} {l : List α} {j : Nat} {a : α}
    (h : l[j]? = some a) : j < l.length := by
  by_contra hc
  rw [List.getElem?_eq_none (by omega)] at h
  exact Option.noConfusion h

/-- The full specification of the shared argument handling: lengths and
keys are preserved, stored lists are the (re-resolved) originals, passed
lists are fresh copies with equal contents but distinct references, and
writes confined to passed references leave every stored list unchanged. -/
theorem pluginCallArgs_spec (si : SInfo) (h : Heap)
    (args : List (String × Nat)) (hv : ∀ kr ∈ args, kr.2 < h.length) :
    (pluginCallArgs si h args).2.1.length = args.length ∧
    (pluginCallArgs si h args).2.2.length = args.length ∧
    (∀ (j : Nat) (k : String) (r : Nat), args[j]? = some (k, r) →
      ∃ rs : Nat, (pluginCallArgs si h args).2.1[j]? = some (k, rs) ∧
        hread (pluginCallArgs si h args).1 rs =
          (if hasextrasubs si then (hread h r).map (extrasubs si)
           else hread h r)) ∧
    (∀ (j : Nat) (k : String) (rs : Nat), (pluginCallArgs si h args).2.1[j]? = some (k, rs) →
      ∃ rp : Nat, (pluginCallArgs si h args).2.2[j]? = some (k, rp) ∧ rs ≠ rp ∧
        hread (pluginCallArgs si h args).1 rp =
          hread (pluginCallArgs si h args).1 rs) ∧
    (∀ writes : List (Nat × List String),
      (∀ iv ∈ writes, iv.1 ∈ (pluginCallArgs si h args).2.2.map Prod.snd) →
      ∀ kr ∈ (pluginCallArgs si h args).2.1,
        hread (applyWrites (pluginCallArgs si h args).1 writes) kr.2 =
          hread (pluginCallArgs si h args).1 kr.2) := by
  by_cases hex : hasextrasubs si = true
  · have hrw : pluginCallArgs si h args =
        ((cloneArgs (reResolveArgs si h args).1 (reResolveArgs si h args).2).1,
         (reResolveArgs si h args).2,
         (cloneArgs (reResolveArgs si h args).1 (reResolveArgs si h args).2).2) := by
      unfold pluginCallArgs
      rw [if_pos hex]
    rw [hrw]
    dsimp only
    have hSlen : (reResolveArgs si h args).2.length = args.length :=
      reResolveArgs_len2 si args h
    have hA1len : (reResolveArgs si h args).1.length =
        h.length + args.length := reResolveArgs_heap_len si args h
    have hvS : ∀ kr ∈ (reResolveArgs si h args).2,
        kr.2 < (reResolveArgs si h args).1.length := by
      intro kr hm
      obtain ⟨i, hi⟩ := getElem?_of_mem hm
      have hiS : i < (reResolveArgs si h args).2.length :=
        lt_length_of_getElem? hi
      have hia : i < args.length := by omega
      obtain ⟨⟨ki, ri⟩, ha⟩ : ∃ a, args[i]? = some a :=
        ⟨_, List.getElem?_eq_getElem hia⟩
      obtain ⟨hS, _⟩ := reResolveArgs_spec si args h i ki ri hv ha
      have hkr : kr = (ki, h.length + i) := Option.some.inj (hi.symm.trans hS)
      have hkr2 : kr.2 = h.length + i := by rw [hkr]
      omega
    refine ⟨hSlen, ?_, ?_, ?_, ?_⟩
    · rw [cloneArgs_len2, hSlen]
    · intro j k r hargs
      obtain ⟨hS, hRead⟩ := reResolveArgs_spec si args h j k r hv hargs
      have hjlt : j < args.length := lt_length_of_getElem? hargs
      refine ⟨h.length + j, hS, ?_⟩
      rw [if_pos hex, ← hRead]
      exact cloneArgs_extends _ _ _ (by omega)
    · intro j k rs hst
      have hj : j < (reResolveArgs si h args).2.length :=
        lt_length_of_getElem? hst
      have hj2 : j < args.length := by omega
      obtain ⟨⟨k0, r0⟩, hargs⟩ : ∃ a, args[j]? = some a :=
        ⟨_, List.getElem?_eq_getElem hj2⟩
      obtain ⟨hS, _⟩ := reResolveArgs_spec si args h j k0 r0 hv hargs
      have hpair : (k0, h.length + j) = (k, rs) := Option.some.inj (hS.symm.trans hst)
      have hrs : rs = h.length + j := (congrArg Prod.snd hpair).symm
      obtain ⟨hCl, hClRead⟩ := cloneArgs_spec (reResolveArgs si h args).2
        (reResolveArgs si h args).1 j k rs hvS hst
      refine ⟨(reResolveArgs si h args).1.length + j, hCl, ?_, ?_⟩
      · omega
      · rw [hClRead]
        exact (cloneArgs_extends _ _ _ (by omega)).symm
    · intro writes hw kr hm
      have hkr : kr.2 < (reResolveArgs si h args).1.length := hvS kr hm
      apply applyWrites_preserve
      intro iv hiw
      have := hw iv hiw
      obtain ⟨kp, hkp, hkpe⟩ := List.mem_map.mp this
      have := cloneArgs_refs_ge _ _ kp hkp
      omega
  · have hrw : pluginCallArgs si h args =
        ((cloneArgs h args).1, args, (cloneArgs h args).2) := by
      unfold pluginCallArgs
      rw [if_neg hex]
    rw [hrw]
    dsimp only
    refine ⟨rfl, cloneArgs_len2 args h, ?_, ?_, ?_⟩
    · intro j k r hargs
      refine ⟨r, hargs, ?_⟩
      rw [if_neg hex]
      exact cloneArgs_extends _ _ _ (hv (k, r) (List.getElem?_mem hargs))
    · intro j k rs hst
      obtain ⟨hCl, hClRead⟩ := cloneArgs_spec args h j k rs hv hst
      have hrs : rs < h.length := hv (k, rs) (List.getElem?_mem hst)
      refine ⟨h.length + j, hCl, by omega, ?_⟩
      rw [hClRead]
      exact (cloneArgs_extends _ _ _ hrs).symm
    · intro writes hw kr hm
      have hkr : kr.2 < h.length := hv kr hm
      apply applyWrites_preserve
      intro iv hiw
      obtain ⟨kp, hkp, hkpe⟩ := List.mem_map.mp (hw iv hiw)
      have := cloneArgs_refs_ge _ _ kp hkp
      omega

/-- C7: `doVerify` and `doGenerate` share the same argument handling;
immediately before a plugin call the stored argument lists are re-resolved
against extra substitutions (when any exist) and the mapping passed to the
plugin is a fresh deep copy — same keys and equal list contents but
disjoint references — so any in-place mutation the plugin performs on the
lists it received leaves every stored argument list (and hence every later
invocation of the same spec instance) unchanged. -/
theorem C7_plugin_args_deep_copy (si : SInfo) (h : Heap)
    (args : List (String × Nat)) (hv : ∀ kr ∈ args, kr.2 < h.length) :
    doVerifyArgs si h args = doGenerateArgs si h args ∧
    (doVerifyArgs si h args).2.1.length = args.length ∧
    (doVerifyArgs si h args).2.2.length = args.length ∧
    (∀ (j : Nat) (k : String) (r : Nat), args[j]? = some (k, r) →
      ∃ rs : Nat, (doVerifyArgs si h args).2.1[j]? = some (k, rs) ∧
        hread (doVerifyArgs si h args).1 rs =
          (if hasextrasubs si then (hread h r).map (extrasubs si)
           else hread h r)) ∧
    (∀ (j : Nat) (k : String) (rs : Nat), (doVerifyArgs si h args).2.1[j]? = some (k, rs) →
      ∃ rp : Nat, (doVerifyArgs si h args).2.2[j]? = some (k, rp) ∧ rs ≠ rp ∧
        hread (doVerifyArgs si h args).1 rp =
          hread (doVerifyArgs si h args).1 rs) ∧
    (∀ writes : List (Nat × List String),
      (∀ iv ∈ writes, iv.1 ∈ (doVerifyArgs si h args).2.2.map Prod.snd) →
      ∀ kr ∈ (doVerifyArgs si h args).2.1,
        hread (applyWrites (doVerifyArgs si h args).1 writes) kr.2 =
          hread (doVerifyArgs si h args).1 kr.2) := by
  have hs := pluginCallArgs_spec si h args hv
  exact ⟨rfl, hs.1, hs.2.1, hs.2.2.1, hs.2.2.2.1, hs.2.2.2.2⟩

/-- Witness for C7: one stored argument list, extra substitutions present:
the stored entry keeps its key and its (re-resolved) contents are what the
plugin copy sees. -/
theorem C7_plugin_args_deep_copy_witness :
    ∃ rs, (doVerifyArgs ⟨"", "", "", "", ∅, [], [("$x:", "y")]⟩ [["a"]]
        [("arg1", 0)]).2.1[0]? = some ("arg1", rs) ∧
      hread (doVerifyArgs ⟨"", "", "", "", ∅, [], [("$x:", "y")]⟩ [["a"]]
        [("arg1", 0)]).1 rs =
        (if hasextrasubs ⟨"", "", "", "", ∅, [], [("$x:", "y")]⟩ then
          (hread [["a"]] 0).map
            (extrasubs ⟨"", "", "", "", ∅, [], [("$x:", "y")]⟩)
         else hread [["a"]] 0) :=
  (C7_plugin_args_deep_copy ⟨"", "", "", "", ∅, [], [("$x:", "y")]⟩ [["a"]]
    [("arg1", 0)] (by decide)).2.2.2.1 0 "arg1" 0 rfl

end CalDav
